import Mathlib

/-!
Verification of the CYNO_AI backend against its specification.

This file shallowly embeds the Python functions of the repository
(`BACKEND/tumor_board_agents/utils/validation.py`,
`BACKEND/tumor_board_agents/utils/data_cleaner.py`,
`BACKEND/tumor_board_agents/utils/confidence_calculator.py`,
`BACKEND/routers/ocr_llm.py`,
`BACKEND/tumor_board_agents/radiology/radiology_agent.py`)
as executable Lean definitions and proves or refutes the frozen claims
about them.

Modelling conventions:
  * Python `str` is `String`; a dict field that may be missing or `None`
    is modelled as `Option _` or, where the code treats `None` and `""`
    identically (truthiness, placeholder checks), as `String` with `""`.
  * Python `float` is modelled as `ℚ`.  Where the code multiplies a list
    length by a decimal constant (`0.2`, `0.7`, `0.3`) and compares with an
    integer count, the comparison is modelled by the exact integer
    inequality; for the magnitudes reachable here the IEEE-754 computation
    agrees with the exact one (the rounded product never crosses an
    integer boundary in the wrong direction).
  * `re` usage is embedded by direct scanning functions for the concrete
    patterns appearing in the source.
-/

namespace CYNO

/-! ## Kernel-computable rational arithmetic

The core `Rat.add`/`mul`/`div` are `@[irreducible]`, so concrete witnesses
could not be checked by `decide` through them.  The wrappers below compute
the same rationals through `mkRat`, which the kernel reduces. -/

def qAdd (a b : ℚ) : ℚ := mkRat (a.num * b.den + b.num * a.den) (a.den * b.den)

def qSub (a b : ℚ) : ℚ := mkRat (a.num * b.den - b.num * a.den) (a.den * b.den)

def qMul (a b : ℚ) : ℚ := mkRat (a.num * b.num) (a.den * b.den)

def qDiv (a b : ℚ) : ℚ :=
  if 0 ≤ b.num then mkRat (a.num * b.den) (a.den * b.num.natAbs)
  else mkRat (-(a.num * (b.den : Int))) (a.den * b.num.natAbs)

def qNeg (a : ℚ) : ℚ := mkRat (-a.num) a.den

def qPow10 (k : Nat) : ℚ := ((10 ^ k : Nat) : ℚ)

def qSum (l : List ℚ) : ℚ := l.foldl qAdd (mkRat 0 1)

/-! ## Python string primitives -/

/-- `l₁` starts with `l₂`. -/
def listStartsChar : List Char → List Char → Bool
  | _, [] => true
  | [], _ :: _ => false
  | a :: as, b :: bs => a == b && listStartsChar as bs

/-- Python `s.lower()` (ASCII case folding, which covers the data here). -/
def pyLower (s : String) : String := String.mk (s.toList.map Char.toLower)

/-- Python `s.upper()`. -/
def pyUpper (s : String) : String := String.mk (s.toList.map Char.toUpper)

/-- Python `s.strip()`. -/
def pyTrim (s : String) : String :=
  String.mk (((s.toList.dropWhile Char.isWhitespace).reverse.dropWhile
    Char.isWhitespace).reverse)

/-- `s.startswith(pat)` / regex `^pat`. -/
def strStarts (s pat : String) : Bool := listStartsChar s.toList pat.toList

/-- `needle` occurs as a contiguous sublist of the second argument. -/
def listIsInfix (needle : List Char) : List Char → Bool
  | [] => needle.isEmpty
  | l@(_ :: rest) => listStartsChar l needle || listIsInfix needle rest

/-- Python `needle in haystack` for strings (substring containment). -/
def strContains (haystack needle : String) : Bool :=
  listIsInfix needle.toList haystack.toList

/-- Tokenizer for Python `s.split()`. -/
def wsTokens : Nat → List Char → List String
  | 0, _ => []
  | _ + 1, [] => []
  | fuel + 1, l =>
      let l := l.dropWhile Char.isWhitespace
      let tok := l.takeWhile (fun c => !c.isWhitespace)
      if tok.isEmpty then []
      else String.mk tok :: wsTokens fuel (l.drop tok.length)

/-- Python `s.split()`: split on whitespace runs, dropping empty tokens. -/
def pySplitWs (s : String) : List String :=
  wsTokens (s.toList.length + 1) s.toList

/-- Split a character list at a separator character, keeping empty pieces
(Python `s.split(sep)` with an explicit separator). -/
def splitOnChar (sep : Char) (l : List Char) : List String :=
  let step := l.foldr
    (fun c (acc : List String × List Char) =>
      if c = sep then (String.mk acc.2 :: acc.1, []) else (acc.1, c :: acc.2))
    ([], [])
  String.mk step.2 :: step.1

/-- Python `s.capitalize()`: first char upper-cased, the rest lower-cased. -/
def pyCapitalize (s : String) : String :=
  match s.toList with
  | [] => ""
  | c :: rest => String.mk (c.toUpper :: rest.map Char.toLower)

/-- The first maximal run of characters matching `[\d.]+` in `s`
(`re.search(r'[\d.]+', s)` / first element of `re.findall`). -/
def numRunChar (c : Char) : Bool := c.isDigit || c == '.'

def firstNumRunAux : List Char → Option (List Char)
  | [] => none
  | c :: cs =>
      if numRunChar c then some (c :: cs.takeWhile numRunChar)
      else firstNumRunAux cs

def firstNumRun (s : String) : Option String :=
  (firstNumRunAux s.toList).map String.mk

/-- Digits of a decimal string, if all characters are digits and it is
nonempty. -/
def natOfDigits (s : String) : Option Nat :=
  if s = "" then none
  else if s.toList.all Char.isDigit then
    some (s.toList.foldl (fun n c => 10 * n + (c.toNat - 48)) 0)
  else none

/-- Python `float(s)` restricted to strings drawn from `[\d.]+` runs:
accepts `123`, `1.5`, `.5`, `5.`; rejects a bare `.` or several dots. -/
def pyFloatOfRun (s : String) : Option ℚ :=
  match splitOnChar '.' s.toList with
  | [a] => (natOfDigits a).map (fun n => (n : ℚ))
  | [a, b] =>
      if a = "" && b = "" then none
      else
        let ip : ℚ := ((natOfDigits a).getD 0 : Nat)
        let fp : ℚ :=
          match natOfDigits b with
          | some m => qDiv (m : ℚ) (qPow10 b.length)
          | none => 0
        if (a ≠ "" || b ≠ "") && (a = "" || (natOfDigits a).isSome)
            && (b = "" || (natOfDigits b).isSome) then
          some (qAdd ip fp)
        else none
  | _ => none

/-- Round half to even, as Python `round` behaves on exactly representable
ties. -/
def roundHalfEven (q : ℚ) : ℤ :=
  let f := Rat.floor q
  let r := qSub q (f : ℚ)
  if r < mkRat 1 2 then f
  else if mkRat 1 2 < r then f + 1
  else if f % 2 = 0 then f else f + 1

/-- Python `round(x, 2)` on the decimal values produced here. -/
def round2 (q : ℚ) : ℚ := qDiv ((roundHalfEven (qMul q (mkRat 100 1)) : ℤ) : ℚ) (mkRat 100 1)

/-- Smallest number of decimal digits (≤ 20) that makes `q·10^k` integral. -/
def decPlaces (q : ℚ) : Nat :=
  ((List.range 21).find? (fun k => (qMul q (qPow10 k)).den = 1)).getD 20

/-- Left-pad a digit string with zeros to length `k`. -/
def padZeros (s : String) (k : Nat) : String :=
  if s.length ≥ k then s
  else String.mk (List.replicate (k - s.length) '0') ++ s

/-- Python `str(x)` for a float, for the decimal values appearing in this
code base (`str(100.0) = "100.0"`, `str(13.2) = "13.2"`). -/
def pyFloatRepr (q : ℚ) : String :=
  if q.den = 1 then toString q.num ++ ".0"
  else
    let k := decPlaces q
    let sign := if q < 0 then "-" else ""
    let m := (q.num.natAbs * (10 : Nat) ^ k) / q.den
    let ds := padZeros (toString m) (k + 1)
    sign ++ ds.take (ds.length - k) ++ "." ++ ds.drop (ds.length - k)

/-- Deduplicate keeping first occurrences.  Models
`list(set(xs))` only up to ordering: CPython set iteration order is
implementation defined, and no theorem below depends on this order. -/
def dedupFirst : List String → List String
  | [] => []
  | x :: xs => x :: dedupFirst (xs.filter (fun y => y ≠ x))
termination_by l => l.length
decreasing_by
  exact Nat.lt_succ_of_le (List.length_filter_le _ _)

/-! ## `validation.py` — data model

An agent-view finding is a JSON object with string-valued fields; a missing
key and an explicit `None` behave identically in every access the code
performs (`get(..., '')`, `or ''`, truthiness, placeholder regexes), so both
are modelled as `""`.  `name` is carried because
`filter_biomarkers_by_disease` reads `biomarker.get("name")`. -/

structure AFinding where
  title : String := ""
  value : String := ""
  category : String := ""
  severity : String := ""
  interpretation : String := ""
  name : String := ""
deriving DecidableEq, Repr

/-- The findings dict of a multi-agent view; `none` models a missing key
(the code distinguishes `category in findings` from `findings.get(c, [])`). -/
structure FindingsMap where
  imaging : Option (List AFinding) := none
  pathology : Option (List AFinding) := none
  clinical : Option (List AFinding) := none
  biomarkers : Option (List AFinding) := none
deriving DecidableEq, Repr

def fGet (o : Option (List AFinding)) : List AFinding := o.getD []

/-- A staging dict; `none` models both a missing key and a falsy (empty)
dict, which the code treats identically (`if staging:`). -/
structure Staging where
  clinical_stage : String := ""
  pathological_stage : String := ""
  tnm_staging : String := ""
deriving DecidableEq, Repr

structure ARecommendation where
  text : String := ""
  category : String := ""
  rationale : String := ""
deriving DecidableEq, Repr

structure ATrial where
  name : String := ""
  source : String := ""
  eligibility : String := ""
deriving DecidableEq, Repr

structure ValidationResult where
  is_safe_for_treatment_recs : Bool
  data_completeness_score : ℚ
  status : String
  missing_critical_data : List String
  warnings : List String
  complexity_override : Option String
deriving DecidableEq, Repr

/-! ## `validation.py` — functions -/

/-- `DISEASE_BIOMARKER_MAP`; `.get(category, [])` semantics: unknown keys
give `[]`. -/
def DISEASE_BIOMARKER_MAP (cat : String) : List String :=
  if cat = "breast" then ["ER", "PR", "HER2", "Ki-67", "BRCA1", "BRCA2"]
  else if cat = "lung" then ["EGFR", "ALK", "PD-L1", "ROS1", "KRAS", "MET", "BRAF"]
  else if cat = "colorectal" then ["KRAS", "NRAS", "BRAF", "MSI", "MMR"]
  else if cat = "hematologic" then
    ["BCR-ABL", "FLT3", "NPM1", "IDH1", "IDH2", "CD markers", "JAK2", "MPL", "CALR"]
  else if cat = "prostate" then ["PSA", "AR", "PTEN", "BRCA"]
  else if cat = "ovarian" then ["BRCA1", "BRCA2", "HRD", "CA-125"]
  else if cat = "melanoma" then ["BRAF", "NRAS", "KIT", "PD-L1"]
  else []

def invalidDiagnoses : List String :=
  ["blood", "unknown", "pending", "suspected", "possible",
   "n/a", "none", "string", "null", ""]

def specificDiagnosisTerms : List String :=
  ["carcinoma", "lymphoma", "leukemia", "sarcoma", "melanoma", "adenoma", "myeloma"]

/-- `is_diagnosis_confirmed`. -/
def is_diagnosis_confirmed (findings : FindingsMap) : Bool :=
  (fGet findings.pathology).any fun f =>
    f.category == "diagnosis" &&
      (let value := pyTrim (pyLower f.value)
       value ≠ "" && !(invalidDiagnoses.contains value) &&
         specificDiagnosisTerms.any (fun term => strContains value term))

def stagingTitleTerms : List String :=
  ["stage", "tnm", "t1", "t2", "t3", "t4", "n0", "n1", "m0", "m1"]

/-- `is_staging_available`. -/
def is_staging_available (findings : FindingsMap) (staging : Option Staging) : Bool :=
  (match staging with
   | some st =>
       st.clinical_stage ≠ "" || st.pathological_stage ≠ "" || st.tnm_staging ≠ ""
   | none => false) ||
  ([fGet findings.pathology, fGet findings.clinical].any fun cat =>
    cat.any fun f =>
      (stagingTitleTerms.any fun term => strContains (pyLower f.title) term) &&
      f.value ≠ "" &&
      !(["unknown", "pending", "n/a", ""].contains (pyLower f.value)))

/-- `has_imaging_data`. -/
def has_imaging_data (findings : FindingsMap) : Bool :=
  (fGet findings.imaging).length > 0

/-- `has_pathology_confirmation`. -/
def has_pathology_confirmation (findings : FindingsMap) : Bool :=
  (fGet findings.pathology).any fun f =>
    let value := pyTrim (pyLower f.value)
    value ≠ "" && !(["string", "unknown", "n/a", "null", "none", ""].contains value)

def hematologicIndicators : List String :=
  ["wbc", "rbc", "hemoglobin", "platelet", "blast", "lymphocyte"]

/-- `detect_disease_category`.  The cleaner calls it with `diagnosis=None`,
modelled by `diagnosis = ""`. -/
def detect_disease_category (findings : FindingsMap) (diagnosis : String) : String :=
  let d := pyLower diagnosis
  if ["breast", "mammary"].any (strContains d ·) then "breast"
  else if ["lung", "pulmonary", "bronchial"].any (strContains d ·) then "lung"
  else if ["colon", "rectal", "colorectal", "bowel"].any (strContains d ·) then "colorectal"
  else if ["blood", "leukemia", "lymphoma", "myeloma", "hematologic"].any (strContains d ·) then
    "hematologic"
  else if ["prostate"].any (strContains d ·) then "prostate"
  else if ["ovary", "ovarian"].any (strContains d ·) then "ovarian"
  else if ["melanoma", "skin"].any (strContains d ·) then "melanoma"
  else
    let clinical := fGet findings.clinical
    let hematologicCount := clinical.countP fun f =>
      hematologicIndicators.any fun ind => strContains (pyLower f.title) ind
    if hematologicCount ≥ 3 then "hematologic" else "unknown"

/-- `calculate_data_completeness_score`.  The float accumulation of the
two-decimal weights followed by `round(score, 2)` yields the exact decimal
sum, modelled exactly in `ℚ`. -/
def calculate_data_completeness_score (findings : FindingsMap)
    (staging : Option Staging) : ℚ × List String :=
  let s1 : ℚ × List String :=
    if is_diagnosis_confirmed findings then (mkRat 30 100, [])
    else (0, ["Confirmed pathological diagnosis"])
  let s2 : ℚ × List String :=
    if has_imaging_data findings then (qAdd s1.1 (mkRat 20 100), s1.2)
    else (s1.1, s1.2 ++ ["Imaging/radiology data"])
  let s3 : ℚ × List String :=
    if is_staging_available findings staging then (qAdd s2.1 (mkRat 20 100), s2.2)
    else (s2.1, s2.2 ++ ["Cancer staging (TNM)"])
  let s4 : ℚ × List String :=
    if has_pathology_confirmation findings then (qAdd s3.1 (mkRat 15 100), s3.2)
    else (s3.1, s3.2 ++ ["Pathology confirmation"])
  let labCount := (fGet findings.clinical).countP fun f => f.category == "lab"
  let s5 : ℚ × List String :=
    if labCount ≥ 3 then (qAdd s4.1 (mkRat 15 100), s4.2)
    else (s4.1, s4.2 ++ ["Complete laboratory workup"])
  (round2 s5.1, s5.2)

/-- `determine_status` (statuses are their `.value` strings). -/
def determine_status (score : ℚ) : String :=
  if score < mkRat 3 10 then "diagnostic_workup_required"
  else if score < mkRat 1 2 then "pending_confirmation"
  else if score < mkRat 7 10 then "preliminary"
  else "ready_for_review"

/-- `check_critical_findings`.  Note well: the body only tests hemoglobin,
platelets and WBC; the `neutrophil` and `creatinine` entries of
`CRITICAL_THRESHOLDS` are never consulted by the source. -/
def check_critical_findings (findings : FindingsMap) :
    Bool × Option String × List String :=
  let step := fun (acc : Bool × List String) (f : AFinding) =>
    let title := pyLower f.title
    match (firstNumRun f.value).bind pyFloatOfRun with
    | none => acc
    | some value =>
        let acc :=
          if (strContains title "hemoglobin" || strContains title "hb"
                || strContains title "hgb") && value < 7 then
            (true, acc.2 ++ ["⚠️ CRITICAL: Severe anemia (Hgb " ++ pyFloatRepr value ++ " g/dL)"])
          else acc
        let acc :=
          if strContains title "platelet" && value < 50000 then
            (true, acc.2 ++ ["⚠️ CRITICAL: Severe thrombocytopenia (Plt " ++ pyFloatRepr value ++ ")"])
          else acc
        let acc :=
          if strContains title "wbc" || strContains title "leucocyte"
              || strContains title "leukocyte" then
            if value < 1000 then
              (true, acc.2 ++ ["⚠️ CRITICAL: Severe leukopenia (WBC " ++ pyFloatRepr value ++ ")"])
            else if value > 50000 then
              (true, acc.2 ++ ["⚠️ CRITICAL: Leukocytosis (WBC " ++ pyFloatRepr value ++ ")"])
            else acc
          else acc
        acc
  let r := (fGet findings.clinical).foldl step (false, [])
  (r.1, if r.1 then some "high" else none, r.2)

/-- `validate_for_treatment_recommendations` (the `current_confidence`
parameter is unused by the source body and omitted). -/
def validate_for_treatment_recommendations (findings : FindingsMap)
    (staging : Option Staging) : ValidationResult :=
  let sm := calculate_data_completeness_score findings staging
  let status := determine_status sm.1
  let crit := check_critical_findings findings
  let warnings := crit.2.2
  let warnings := warnings ++
    (if has_imaging_data findings then [] else
      ["⚠️ No imaging data available. Imaging required before tumor board conclusions."])
  let warnings := warnings ++
    (if is_diagnosis_confirmed findings then [] else
      ["⚠️ Diagnosis pending. Treatment recommendations are preliminary only."])
  let warnings := warnings ++
    (if has_pathology_confirmation findings then [] else
      ["⚠️ Pathology confirmation required before treatment initiation."])
  let warnings := warnings ++
    (if is_staging_available findings staging then [] else
      ["⚠️ Staging data incomplete. Cannot determine treatment eligibility."])
  let is_safe := decide (sm.1 ≥ mkRat 1 2) && is_diagnosis_confirmed findings
    && has_pathology_confirmation findings
  { is_safe_for_treatment_recs := is_safe
    data_completeness_score := sm.1
    status := status
    missing_critical_data := sm.2
    warnings := warnings
    complexity_override := crit.2.1 }

def genericMarkers : List String := ["LDH", "AFP", "CEA", "CA-125", "CA-19"]

/-- `filter_biomarkers_by_disease`. -/
def filter_biomarkers_by_disease (biomarkers : List AFinding)
    (disease_category : String) : List AFinding :=
  if disease_category = "unknown" then biomarkers
  else
    let relevant := DISEASE_BIOMARKER_MAP disease_category
    if relevant.isEmpty then biomarkers
    else
      biomarkers.filter fun b =>
        let nm := pyUpper (if b.title ≠ "" then b.title else b.name)
        (relevant.any fun rel => strContains nm (pyUpper rel)) ||
        (genericMarkers.any fun g => strContains nm g)

def allowedRecCategories : List String :=
  ["diagnostic", "imaging", "biopsy", "referral", "workup", "consultation"]

def diagnosticIntentTerms : List String :=
  ["confirm", "rule out", "evaluate", "assess", "test", "biopsy", "imaging", "refer"]

/-- `sanitize_recommendations`. -/
def sanitize_recommendations (recommendations : List ARecommendation)
    (validation_result : ValidationResult) : List ARecommendation :=
  if validation_result.is_safe_for_treatment_recs then recommendations
  else
    recommendations.foldl
      (fun acc rec =>
        let category := pyLower rec.category
        let text := pyLower rec.text
        if allowedRecCategories.contains category then acc ++ [rec]
        else if diagnosticIntentTerms.any (fun term => strContains text term) then
          acc ++ [{ rec with category := "diagnostic" }]
        else acc)
      []

/-! ## `data_cleaner.py` — placeholder detection and value cleaning -/

/-- `PLACEHOLDER_REGEX.match(value.strip())` (case-insensitive, anchored):
alternation of `^string$`, `^string \(`, `^Unknown$`, `^None$`, `^null$`,
`^N/A$`, `^\s*$`, `^2-3 sentence`. -/
def isPlaceholderS (s : String) : Bool :=
  let t := pyTrim s
  let tl := pyLower t
  tl == "string" || strStarts tl "string (" || tl == "unknown" || tl == "none" ||
  tl == "null" || tl == "n/a" || t == "" || strStarts tl "2-3 sentence"

/-- `is_placeholder` on an optional string (Python `None` is a placeholder). -/
def isPlaceholderOpt : Option String → Bool
  | none => true
  | some s => isPlaceholderS s

def isWordChar (c : Char) : Bool := c.isAlphanum || c == '_'

/-- One attempt of `re.sub(r'(\w+/\w+)\s+\1', r'\1', ·)` at the head of the
list: a word/word unit, whitespace, and the same unit again.  Each `\w+` is
matched greedily; since `/` and whitespace are not word characters the
regex engine needs no backtracking here. -/
def tryDupUnit (l : List Char) : Option (List Char × List Char) :=
  let a := l.takeWhile isWordChar
  if a.isEmpty then none
  else
    match l.drop a.length with
    | '/' :: l2 =>
        let b := l2.takeWhile isWordChar
        if b.isEmpty then none
        else
          let unit := a ++ '/' :: b
          let l3 := l2.drop b.length
          let w := l3.takeWhile Char.isWhitespace
          if w.isEmpty then none
          else
            let l4 := l3.drop w.length
            if listStartsChar l4 unit then some (unit, l4.drop unit.length)
            else none
    | _ => none

/-- One attempt of `re.sub(r'(LIT)\s+LIT', r'\1', ·)` at the head. -/
def tryLitDup (lit : List Char) (l : List Char) : Option (List Char × List Char) :=
  if listStartsChar l lit then
    let l1 := l.drop lit.length
    let w := l1.takeWhile Char.isWhitespace
    if w.isEmpty then none
    else
      let l2 := l1.drop w.length
      if listStartsChar l2 lit then some (lit, l2.drop lit.length) else none
  else none

/-- `re.sub` driver: leftmost, non-overlapping, continuing after each
replacement. -/
def subScan (tryM : List Char → Option (List Char × List Char)) :
    Nat → List Char → List Char
  | 0, l => l
  | _ + 1, [] => []
  | fuel + 1, c :: rest =>
      match tryM (c :: rest) with
      | some (rep, rem) => rep ++ subScan tryM fuel rem
      | none => c :: subScan tryM fuel rest

def applySub (tryM : List Char → Option (List Char × List Char))
    (l : List Char) : List Char :=
  subScan tryM l.length l

/-- The `DUPLICATE_UNIT_PATTERNS` substitutions, in source order. -/
def dupUnitSubs (l : List Char) : List Char :=
  let l := applySub tryDupUnit l
  let l := applySub (tryLitDup ['%']) l
  let l := applySub (tryLitDup "lakh/cu.mm".toList) l
  let l := applySub (tryLitDup "million/cu.mm".toList) l
  let l := applySub (tryLitDup ['p', 'g']) l
  let l := applySub (tryLitDup ['f', 'L']) l
  l

/-- Does the whole remaining list match `\s*\(None\)\s*$`? -/
def parenNoneSuffix (l : List Char) : Bool :=
  let t := l.dropWhile Char.isWhitespace
  listStartsChar t "(None)".toList && (t.drop 6).all Char.isWhitespace

/-- `re.sub(r'\s*\(None\)\s*$', '', ·)`: delete from the leftmost position
whose suffix matches. -/
def stripParenNone (l : List Char) : List Char :=
  match (List.range (l.length + 1)).find? (fun i => parenNoneSuffix (l.drop i)) with
  | some i => l.take i
  | none => l

/-- Does the whole remaining list match `\s+None$`? -/
def noneSuffix (l : List Char) : Bool :=
  let w := l.takeWhile Char.isWhitespace
  !w.isEmpty && l.drop w.length == "None".toList

/-- `re.sub(r'\s+None$', '', ·)`. -/
def stripTrailingNone (l : List Char) : List Char :=
  match (List.range (l.length + 1)).find? (fun i => noneSuffix (l.drop i)) with
  | some i => l.take i
  | none => l

/-- `clean_value` (`""` also covers the `None`/non-string early return). -/
def clean_value (value : String) : String :=
  if value = "" then ""
  else
    let cleaned := (pyTrim value).toList
    let cleaned := dupUnitSubs cleaned
    let cleaned := stripParenNone cleaned
    let cleaned := stripTrailingNone cleaned
    pyTrim (String.mk cleaned)

/-- `GENDER_MAP.get`. -/
def GENDER_MAP (k : String) : Option String :=
  if k = "male" || k = "m" || k = "man" then some "Male"
  else if k = "female" || k = "f" || k = "woman" then some "Female"
  else none

/-- `standardize_gender`. -/
def standardize_gender (gender : String) : String :=
  if gender = "" then ""
  else (GENDER_MAP (pyTrim (pyLower gender))).getD (pyCapitalize gender)

/-- `clean_finding` (an empty dict cannot occur for a typed finding, so the
`if not finding` guard has no counterpart). -/
def clean_finding (f : AFinding) : Option AFinding :=
  if isPlaceholderS f.title && isPlaceholderS f.value then none
  else if f.title = "" || isPlaceholderS f.title then none
  else
    let cleaned_value := if f.value ≠ "" then clean_value f.value else ""
    if cleaned_value = "" && !(["info", "low"].contains f.severity)
        && f.category ≠ "lab" then none
    else
      some { f with
        title := clean_value f.title
        value := cleaned_value
        interpretation := clean_value f.interpretation }

/-- `clean_recommendation`. -/
def clean_recommendation (rec : ARecommendation) : Option ARecommendation :=
  if isPlaceholderS rec.text || pyTrim rec.text = "" then none
  else some { rec with text := clean_value rec.text, rationale := clean_value rec.rationale }

/-- `clean_clinical_trial`. -/
def clean_clinical_trial (trial : ATrial) (disease_category : String) : Option ATrial :=
  if isPlaceholderS trial.name || pyTrim trial.name = "" then none
  else
    let nameLower := pyLower trial.name
    if disease_category ≠ "" && disease_category ≠ "unknown" &&
        ((disease_category = "hematologic" &&
          ["breast", "lung", "colon"].any (strContains nameLower ·)) ||
         (disease_category = "breast" &&
          ["leukemia", "lymphoma", "myeloma"].any (strContains nameLower ·))) then
      none
    else
      some { name := clean_value trial.name
             source := clean_value trial.source
             eligibility := clean_value trial.eligibility }

/-! ## `confidence_calculator.py` -/

structure ConfidenceAssessment where
  level : String
  score : ℚ
  justification : String
deriving DecidableEq, Repr

/-- `_assess_diagnosis_quality` (loop with `break` on a specific hit). -/
def assessDiagnosisQuality : List AFinding → ℚ → ℚ
  | [], score => score
  | f :: rest, score =>
      let category := pyLower f.category
      let value := pyTrim (pyLower f.value)
      if category == "diagnosis" && value ≠ "" then
        if ["carcinoma", "adenocarcinoma", "lymphoma", "leukemia", "sarcoma"].any
            (strContains value ·) then 1
        else if ["malignant", "neoplasm", "tumor"].any (strContains value ·) then
          assessDiagnosisQuality rest (max score (mkRat 7 10))
        else if !(["unknown", "pending", "string", "n/a", ""].contains value) then
          assessDiagnosisQuality rest (max score (mkRat 4 10))
        else assessDiagnosisQuality rest score
      else assessDiagnosisQuality rest score

def _assess_diagnosis_quality (findings : FindingsMap) : ℚ :=
  assessDiagnosisQuality (fGet findings.pathology) 0

def _assess_imaging_coverage (findings : FindingsMap) : ℚ :=
  let imaging := fGet findings.imaging
  if imaging.isEmpty then 0
  else if imaging.length ≥ 5 then 1
  else if imaging.length ≥ 3 then mkRat 8 10
  else if imaging.length ≥ 1 then mkRat 1 2
  else 0

def _assess_staging_completeness (findings : FindingsMap)
    (staging : Option Staging) : ℚ :=
  let score : ℚ :=
    match staging with
    | some st =>
        qAdd (qAdd (if st.tnm_staging ≠ "" then mkRat 4 10 else 0)
          (if st.clinical_stage ≠ "" then mkRat 3 10 else 0))
          (if st.pathological_stage ≠ "" then mkRat 3 10 else 0)
    | none => 0
  let score := (fGet findings.pathology ++ fGet findings.clinical).foldl
    (fun score f =>
      let title := pyLower f.title
      if (strContains title "stage" || strContains title "tnm") &&
          f.value ≠ "" &&
          !(["unknown", "pending", ""].contains (pyLower f.value)) then
        min 1 (qAdd score (mkRat 3 10))
      else score)
    score
  min 1 score

def _assess_biomarker_quality (findings : FindingsMap) : ℚ :=
  let biomarkers := fGet findings.biomarkers
  if biomarkers.isEmpty then 0
  else
    let valid := biomarkers.countP fun b =>
      let v := pyTrim (pyLower b.value)
      v ≠ "" && !(["string", "unknown", "n/a", "null", "none", ""].contains v)
    if valid ≥ 4 then 1
    else if valid ≥ 2 then mkRat 7 10
    else if valid ≥ 1 then mkRat 4 10
    else 0

def _assess_lab_completeness (findings : FindingsMap) : ℚ :=
  let labs := (fGet findings.clinical).filter fun f => f.category == "lab"
  if labs.isEmpty then 0
  else
    let valid := labs.countP fun f =>
      let v := pyTrim f.value
      v ≠ "" && !(["none", "n/a", "null", ""].contains (pyLower v))
    if valid ≥ 10 then 1
    else if valid ≥ 5 then mkRat 7 10
    else if valid ≥ 2 then mkRat 4 10
    else mkRat 2 10

/-- Stable insertion used to model Python's stable `sorted(..., key=val)`. -/
def insertByVal (x : String × ℚ) : List (String × ℚ) → List (String × ℚ)
  | [] => [x]
  | y :: ys => if x.2 < y.2 then x :: y :: ys else y :: insertByVal x ys

def stableSortByVal (l : List (String × ℚ)) : List (String × ℚ) :=
  l.foldl (fun acc x => insertByVal x acc) []

def joinWith (sep : String) : List String → String
  | [] => ""
  | [x] => x
  | x :: rest => x :: rest |>.foldl (fun acc y => if acc = "" then y else acc ++ sep ++ y) ""

/-- `_generate_justification`. -/
def _generate_justification (factors : List (String × ℚ)) (level : String) : String :=
  let sortedFactors := stableSortByVal factors
  let weak := (sortedFactors.filter (fun f => f.2 < mkRat 1 10)).map (·.1)
  if level = "very_low" then
    "Insufficient data for reliable conclusions. Missing: " ++
      (if weak.isEmpty then "multiple factors" else joinWith ", " weak) ++ "."
  else if level = "low" then
    "Major data gaps present. Requires additional workup before treatment decisions."
  else if level = "moderate" then
    "Some data gaps exist. Recommendations are preliminary pending complete workup."
  else "Sufficient evidence available for tumor board review."

/-- `calculate_evidence_based_confidence`.  The two-decimal factor values
and their sum are modelled exactly in `ℚ` (`round(·, 2)` on the float is the
exact two-decimal value for every product reachable here, with Python's
half-even behaviour at `0.105`). -/
def calculate_evidence_based_confidence (findings : FindingsMap)
    (staging : Option Staging) : ConfidenceAssessment :=
  let factors : List (String × ℚ) :=
    [("diagnosis", round2 (qMul (_assess_diagnosis_quality findings) (mkRat 30 100))),
     ("imaging", round2 (qMul (_assess_imaging_coverage findings) (mkRat 20 100))),
     ("staging", round2 (qMul (_assess_staging_completeness findings staging) (mkRat 20 100))),
     ("biomarkers", round2 (qMul (_assess_biomarker_quality findings) (mkRat 15 100))),
     ("labs", round2 (qMul (_assess_lab_completeness findings) (mkRat 15 100)))]
  let total : ℚ := qSum (factors.map Prod.snd)
  let level :=
    if total < mkRat 30 100 then "very_low"
    else if total < mkRat 50 100 then "low"
    else if total < mkRat 70 100 then "moderate"
    else "high"
  { level := level
    score := round2 total
    justification := _generate_justification factors level }

/-! ## `data_cleaner.py` — `clean_multi_agent_view`

The Python function starts from `cleaned = dict(view)`, a shallow copy:
the nested `findings` and `recommendations` dicts are shared with the
input, and the function assigns into those shared containers
(`findings[category] = ...`, `recs['treatment'] = ...`), while every other
change is a rebinding of a top-level key of the copy.  The embedding makes
this aliasing explicit by returning both the constructed view and the
state of the input object after the call. -/

structure RecsMap where
  treatment : Option (List ARecommendation) := none
  imaging : Option (List ARecommendation) := none
  other : Option (List ARecommendation) := none
  diagnostic : Option (List ARecommendation) := none
deriving DecidableEq, Repr

structure AgentView where
  patient_name : Option String := none
  patient_age : String := ""
  patient_gender : String := ""
  findings : FindingsMap := {}
  staging : Option Staging := none
  recommendations : Option RecsMap := none
  clinical_trials : Option (List ATrial) := none
  warnings : List String := []
  executive_summary : Option String := none
  overall_confidence : String := ""
  case_complexity : String := ""
  detected_disease_category : String := ""
  diagnostic_status : String := ""
  data_completeness_score : ℚ := 0
  missing_critical_data : List String := []
  confidence_score : ℚ := 0
  confidence_justification : String := ""
deriving DecidableEq, Repr

def cleanFindingList (l : List AFinding) : List AFinding :=
  l.filterMap clean_finding

def cleanRecList (l : List ARecommendation) : List ARecommendation :=
  l.filterMap clean_recommendation

/-- The state of the shared `findings` dict after the cleaning loop and the
biomarker filter (steps 2–3 of the pipeline). -/
def cleanedFindingsOf (view : AgentView) : FindingsMap :=
  let f1 : FindingsMap :=
    { imaging := view.findings.imaging.map cleanFindingList
      pathology := view.findings.pathology.map cleanFindingList
      clinical := view.findings.clinical.map cleanFindingList
      biomarkers := view.findings.biomarkers.map cleanFindingList }
  let disease := detect_disease_category f1 ""
  { f1 with biomarkers := f1.biomarkers.map (filter_biomarkers_by_disease · disease) }

/-- The validation result computed inside `clean_multi_agent_view`. -/
def viewValidation (view : AgentView) : ValidationResult :=
  validate_for_treatment_recommendations (cleanedFindingsOf view) view.staging

/-- `generate_fallback_summary` (always called with a validation result). -/
def generate_fallback_summary (patient_name : Option String) (patient_age : String)
    (patient_gender : String) (findings : FindingsMap)
    (validation : ValidationResult) : String :=
  let name := patient_name.getD "Patient"
  let demo :=
    (if patient_age ≠ "" then [patient_age ++ " year old"] else []) ++
    (if patient_gender ≠ "" then [pyLower patient_gender] else [])
  let parts :=
    if demo.isEmpty then ["Patient: " ++ name ++ "."]
    else [name ++ ", " ++ joinWith " " demo ++ "."]
  let parts := parts ++
    (if validation.is_safe_for_treatment_recs then [] else
      ["Diagnosis is PENDING pathology confirmation."])
  let total := (fGet findings.imaging).length + (fGet findings.pathology).length +
    (fGet findings.clinical).length + (fGet findings.biomarkers).length
  let parts := parts ++
    (if total > 0 then ["Analysis identified " ++ toString total ++ " clinical findings."]
     else [])
  let parts := parts ++
    (if validation.missing_critical_data.isEmpty then [] else
      ["Missing: " ++ joinWith ", " (validation.missing_critical_data.take 2) ++ "."])
  let parts := parts ++
    (if validation.is_safe_for_treatment_recs then [] else
      ["Treatment recommendations are preliminary only."])
  let joined := joinWith " " parts
  if joined = "" then "Case analysis completed. Diagnostic workup recommended." else joined

/-- `clean_multi_agent_view`.  Returns `(returned view, input view after the
call)`: the second component records the in-place mutation of the shared
nested `findings` and `recommendations` containers. -/
def clean_multi_agent_view (view : AgentView) : AgentView × AgentView :=
  let findings2 := cleanedFindingsOf view
  let disease := detect_disease_category
    { imaging := view.findings.imaging.map cleanFindingList
      pathology := view.findings.pathology.map cleanFindingList
      clinical := view.findings.clinical.map cleanFindingList
      biomarkers := view.findings.biomarkers.map cleanFindingList } ""
  let validation := viewValidation view
  let recs2 : Option RecsMap := view.recommendations.map fun r =>
    { treatment := r.treatment.map fun l =>
        sanitize_recommendations (cleanRecList l) validation
      imaging := r.imaging.map cleanRecList
      other := r.other.map cleanRecList
      diagnostic := r.diagnostic.map cleanRecList }
  let trials2 : Option (List ATrial) := view.clinical_trials.map fun l =>
    let cleanedTrials := l.filterMap (clean_clinical_trial · disease)
    if validation.is_safe_for_treatment_recs then cleanedTrials else []
  let conf := calculate_evidence_based_confidence findings2 view.staging
  let output : AgentView :=
    { view with
      patient_gender :=
        if view.patient_gender ≠ "" then standardize_gender view.patient_gender
        else view.patient_gender
      findings := findings2
      detected_disease_category := disease
      diagnostic_status := validation.status
      data_completeness_score := validation.data_completeness_score
      missing_critical_data := validation.missing_critical_data
      case_complexity :=
        if validation.complexity_override.isSome then "high" else view.case_complexity
      warnings := dedupFirst (view.warnings ++ validation.warnings)
      recommendations := recs2
      clinical_trials := trials2
      overall_confidence := conf.level
      confidence_score := conf.score
      confidence_justification := conf.justification }
  let output :=
    { output with
      executive_summary :=
        if isPlaceholderOpt view.executive_summary then
          some (generate_fallback_summary view.patient_name view.patient_age
            output.patient_gender findings2 validation)
        else view.executive_summary }
  let inputAfter : AgentView := { view with findings := findings2, recommendations := recs2 }
  (output, inputAfter)

/-! ## `routers/ocr_llm.py` — identity validation and deterministic verifier -/

/-- `validate_patient_identity`.  Takes the extracted name (possibly
missing/`None`, modelled by `none`; Python also treats `""` as falsy), the
page OCR text and the warnings list; returns the kept name and the warnings
list after the call. -/
def validate_patient_identity (extracted_name : Option String) (ocr_text : String)
    (warnings : List String) : Option String × List String :=
  match extracted_name with
  | none => (none, warnings)
  | some nm =>
      if nm = "" then (none, warnings)
      else
        let name_parts := pySplitWs (pyLower (pyTrim nm))
        let ocr_lower := pyLower ocr_text
        let found_parts := name_parts.countP fun part =>
          strContains ocr_lower part && part.length > 2
        if name_parts.length > 0 && 2 * found_parts ≥ name_parts.length then
          (some nm, warnings)
        else
          (none, warnings ++
            ["Patient name '" ++ nm ++ "' not verified in OCR text - removed to prevent hallucination"])

/-- A Stage-A finding as consumed by the deterministic verifier: the
`test_name`/`value` fields of the raw LLM dict (string-valued, as the
extraction prompt mandates; `""` models a missing key). -/
structure VFinding where
  test_name : String := ""
  value : String := ""
deriving DecidableEq, Repr

/-- `verify_finding_in_ocr`. -/
def verify_finding_in_ocr (finding : VFinding) (ocr_text : String) :
    Bool × List String :=
  if finding.test_name = "" || finding.value = "" then
    (false, ["Missing test_name or value - needs LLM-B validation"])
  else
    let ocr_lower := pyLower ocr_text
    let name_words := (pySplitWs (pyLower finding.test_name)).filter
      (fun w => w.length > 2)
    let name_found := !name_words.isEmpty &&
      name_words.any (fun w => strContains ocr_lower w)
    let value_str := pyTrim finding.value
    let value_found := strContains ocr_text value_str
    let numeric_found :=
      match firstNumRun value_str with
      | some np => strContains ocr_text np
      | none => true
    if name_found && (value_found || numeric_found) then (true, [])
    else
      (false,
        (if !name_found then
          ["Test name '" ++ finding.test_name ++ "' not found in OCR"] else []) ++
        (if !value_found && !numeric_found then
          ["Value '" ++ finding.value ++ "' not found in OCR"] else []))

/-- `should_run_llm_b`.  `int(len(findings) * 0.2)` truncates the IEEE
product toward zero, which equals `len(findings) / 5` in integer division
for every reachable length. -/
def should_run_llm_b (findings : List VFinding) (ocr_text : String) :
    Bool × List String :=
  if findings.isEmpty then (false, [])
  else
    let r := findings.foldl
      (fun (acc : Nat × List String) finding =>
        let vw := verify_finding_in_ocr finding ocr_text
        (if vw.1 then acc.1 else acc.1 + 1, acc.2 ++ vw.2))
      (0, [])
    let threshold := max 1 (findings.length / 5)
    (decide (r.1 ≥ threshold), r.2)

/-! ## `routers/ocr_llm.py` — OCR content cache and image extraction -/

structure OCRTextBlock where
  text : String
  confidence : ℚ
  bbox : List (List Int)
deriving DecidableEq, Repr

structure PageOCRResult where
  page_number : Nat
  text : String
  blocks : List OCRTextBlock
deriving DecidableEq, Repr

structure DocumentOCRResult where
  pages : List PageOCRResult
  total_pages : Nat
  source_type : String
deriving DecidableEq, Repr

/-- `ProcessingConfig.OCR_CACHE_MAX_SIZE` default. -/
def OCR_CACHE_MAX_SIZE : Nat := 100

/-- Process state threaded through the OCR layer: the `_ocr_cache` dict
(insertion-ordered association list, newest last) and a counter of primary
OCR engine invocations. -/
structure OcrState where
  cache : List (String × DocumentOCRResult) := []
  paddleCalls : Nat := 0
deriving DecidableEq, Repr

def assocGetD {β : Type} (m : List (String × β)) (k : String) : Option β :=
  match m with
  | [] => none
  | (k', v) :: rest => if k' = k then some v else assocGetD rest k

/-- Python dict assignment: replace in place if present, else append. -/
def dictSet {β : Type} (m : List (String × β)) (k : String) (v : β) :
    List (String × β) :=
  match m with
  | [] => [(k, v)]
  | (k', v') :: rest =>
      if k' = k then (k, v) :: rest else (k', v') :: dictSet rest k v

/-- Bytes of a file, abstractly. -/
abbrev FileBytes := List Nat

/-- `hash_file_content`: md5 is modelled by an injective digest stand-in. -/
def hash_file_content (content : FileBytes) : String :=
  toString content

/-- `get_cached_ocr`. -/
def get_cached_ocr (st : OcrState) (file_hash : String) : Option DocumentOCRResult :=
  assocGetD st.cache file_hash

/-- `set_cached_ocr`: evict the oldest entry (`next(iter(dict))`) once the
capacity is reached, then insert. -/
def set_cached_ocr (st : OcrState) (file_hash : String) (result : DocumentOCRResult) :
    OcrState :=
  let cache := if st.cache.length ≥ OCR_CACHE_MAX_SIZE then st.cache.drop 1 else st.cache
  { st with cache := dictSet cache file_hash result }

/-- `extract_page_ocr` on the default configuration (`OCR_ENGINE=paddle`):
the dual-layer branch is not taken and only the primary engine runs.  The
primary engine is an oracle `paddle`; invoking it bumps the call counter. -/
def extract_page_ocr (paddle : FileBytes → List OCRTextBlock)
    (image_bytes : FileBytes) (page_number : Nat) (st : OcrState) :
    PageOCRResult × OcrState :=
  let st := { st with paddleCalls := st.paddleCalls + 1 }
  let blocks := paddle image_bytes
  let combined_text := joinWith "\n" (blocks.map (·.text))
  ({ page_number := page_number, text := combined_text, blocks := blocks }, st)

/-- `extract_structured_from_image`.  Faithfully to the source, the function
performs no cache lookup or insertion: `get_cached_ocr`/`set_cached_ocr`
have no call sites anywhere in the repository. -/
def extract_structured_from_image (paddle : FileBytes → List OCRTextBlock)
    (image_bytes : FileBytes) (st : OcrState) : DocumentOCRResult × OcrState :=
  let pr := extract_page_ocr paddle image_bytes 1 st
  ({ pages := [pr.1], total_pages := 1, source_type := "image" }, pr.2)

/-! ## `radiology_agent.py` — overall confidence -/

/-- An agent finding as read by `_overall_confidence` (only the
`confidence` field is consulted; levels are the enum values
`"high" | "medium" | "low" | "none"`). -/
structure RFinding where
  confidence : String
deriving DecidableEq, Repr

/-- `RadiologyAgent._overall_confidence`.  The float comparisons
`high_count >= len * 0.7` and `>= len * 0.3` are exactly the rational
inequalities `10·hc ≥ 7·n` and `10·hc ≥ 3·n` for every reachable length. -/
def radiology_overall_confidence (findings : List RFinding) : String :=
  if findings.isEmpty then "low"
  else
    let high_count := findings.countP fun f => f.confidence == "high"
    if 10 * high_count ≥ 7 * findings.length then "high"
    else if 10 * high_count ≥ 3 * findings.length then "medium"
    else "low"

/-! ## `routers/ocr_llm.py` — `merge_page_analyses` -/

structure PIdentity where
  name : Option String := none
  id : Option String := none
  dob : Option String := none
  gender : Option String := none
  age : Option String := none
deriving DecidableEq, Repr

structure RMetadata where
  report_type : Option String := none
  date : Option String := none
  lab_name : Option String := none
  referring_physician : Option String := none
deriving DecidableEq, Repr

structure MFinding where
  test_name : String := ""
  value : String := ""
  unit : Option String := none
  reference_range : Option String := none
  status : Option String := none
  interpretation : Option String := none
deriving DecidableEq, Repr

/-- A page analysis as consumed by the merger (`PageAnalysisResult`;
`diagnosis`/`recommendations` carry the dataclass annotation types). -/
structure PageAnalysis where
  page_number : Nat := 1
  patient_identity : PIdentity := {}
  report_metadata : RMetadata := {}
  findings : List MFinding := []
  diagnosis : Option String := none
  recommendations : List String := []
  warnings : List String := []
  extraction_confidence : ℚ := 0
  raw_text_preview : String := ""
deriving DecidableEq, Repr

structure MergedDoc where
  patient_identity : PIdentity
  report_metadata : RMetadata
  all_findings : List (MFinding × Nat)
  diagnoses : List String
  recommendations : List String
  aggregate_confidence : ℚ
  merge_warnings : List String
deriving DecidableEq, Repr

/-- Python truthiness of an optional string. -/
def optTruthy : Option String → Bool
  | none => false
  | some s => s ≠ ""

/-- `None` prints as `None` inside the f-strings of the merge warnings. -/
def optRender : Option String → String
  | none => "None"
  | some s => s

/-- First-non-null merge of patient identities. -/
def mergeIdStep (acc : PIdentity) (pi : PIdentity) : PIdentity :=
  { name := if !optTruthy acc.name && optTruthy pi.name then pi.name else acc.name
    id := if !optTruthy acc.id && optTruthy pi.id then pi.id else acc.id
    dob := if !optTruthy acc.dob && optTruthy pi.dob then pi.dob else acc.dob
    gender := if !optTruthy acc.gender && optTruthy pi.gender then pi.gender else acc.gender
    age := if !optTruthy acc.age && optTruthy pi.age then pi.age else acc.age }

/-- First-non-null merge of report metadata. -/
def mergeMetaStep (acc : RMetadata) (rm : RMetadata) : RMetadata :=
  { report_type :=
      if !optTruthy acc.report_type && optTruthy rm.report_type then rm.report_type
      else acc.report_type
    date := if !optTruthy acc.date && optTruthy rm.date then rm.date else acc.date
    lab_name :=
      if !optTruthy acc.lab_name && optTruthy rm.lab_name then rm.lab_name
      else acc.lab_name
    referring_physician :=
      if !optTruthy acc.referring_physician && optTruthy rm.referring_physician then
        rm.referring_physician
      else acc.referring_physician }

/-- The value stored in `seen_findings`: `(finding, page_number, confidence)`. -/
abbrev SeenVal := MFinding × Nat × ℚ

/-- State of the finding aggregation loop: the `seen_findings` dict
(insertion-ordered), the keyless findings already emitted, and the merge
warnings so far. -/
structure SeenState where
  seen : List (String × SeenVal) := []
  keyless : List (MFinding × Nat) := []
  warnings : List String := []
deriving DecidableEq, Repr

/-- The dedup key: `finding.test_name.lower().strip() if finding.test_name
else ""`. -/
def keyOf (f : MFinding) : String :=
  if f.test_name = "" then "" else pyTrim (pyLower f.test_name)

/-- The update of `seen_findings` for one keyed finding: replace iff the new
page's confidence is strictly greater (dict assignment keeps the key's
position). -/
def seenUpdate (m : List (String × SeenVal)) (k : String) (v : SeenVal) :
    List (String × SeenVal) :=
  match assocGetD m k with
  | none => dictSet m k v
  | some cur => if v.2.2 > cur.2.2 then dictSet m k v else m

def unitConflictMsg (f : MFinding) (existing : MFinding) (ep pn : Nat) : String :=
  "Unit conflict for '" ++ f.test_name ++ "': '" ++ optRender existing.unit ++
    "' (page " ++ toString ep ++ ") vs '" ++ optRender f.unit ++ "' (page " ++
    toString pn ++ ")"

def replacedMsg (f : MFinding) (ep pn : Nat) : String :=
  "Replaced '" ++ f.test_name ++ "' from page " ++ toString ep ++ " with page " ++
    toString pn ++ " (higher confidence)"

/-- The body of the aggregation loop for one finding of one page. -/
def scanFinding (page_number : Nat) (conf : ℚ) (st : SeenState) (f : MFinding) :
    SeenState :=
  let key := keyOf f
  if key = "" then { st with keyless := st.keyless ++ [(f, page_number)] }
  else
    match assocGetD st.seen key with
    | some cur =>
        let w1 := if cur.1.unit ≠ f.unit then [unitConflictMsg f cur.1 cur.2.1 page_number] else []
        let w2 := if conf > cur.2.2 then [replacedMsg f cur.2.1 page_number] else []
        { st with
          seen := seenUpdate st.seen key (f, page_number, conf)
          warnings := st.warnings ++ w1 ++ w2 }
    | none => { st with seen := seenUpdate st.seen key (f, page_number, conf) }

/-- The full finding-aggregation loop of `merge_page_analyses`. -/
def mergeScan (pages : List PageAnalysis) : SeenState :=
  pages.foldl
    (fun st p => p.findings.foldl (scanFinding p.page_number p.extraction_confidence) st)
    {}

/-- `merge_page_analyses`. -/
def merge_page_analyses (pages : List PageAnalysis) : MergedDoc :=
  if pages.isEmpty then
    { patient_identity := {}, report_metadata := {}, all_findings := []
      diagnoses := [], recommendations := [], aggregate_confidence := 0
      merge_warnings := [] }
  else
    let merged_identity := pages.foldl (fun acc p => mergeIdStep acc p.patient_identity) {}
    let merged_metadata := pages.foldl (fun acc p => mergeMetaStep acc p.report_metadata) {}
    let st := mergeScan pages
    let all_findings := st.keyless ++ st.seen.map (fun kv => (kv.2.1, kv.2.2.1))
    let diagnoses := pages.foldl
      (fun acc p =>
        match p.diagnosis with
        | some d => if d ≠ "" && !acc.contains d then acc ++ [d] else acc
        | none => acc)
      []
    let recommendations := pages.foldl
      (fun acc p =>
        p.recommendations.foldl
          (fun acc r => if r ≠ "" && !acc.contains r then acc ++ [r] else acc) acc)
      []
    let confidences := pages.filterMap fun p =>
      if p.extraction_confidence > 0 then some p.extraction_confidence else none
    let avg : ℚ := if confidences.isEmpty then 0 else qDiv (qSum confidences) ((confidences.length : Nat) : ℚ)
    { patient_identity := merged_identity
      report_metadata := merged_metadata
      all_findings := all_findings
      diagnoses := diagnoses
      recommendations := recommendations
      aggregate_confidence := round2 avg
      merge_warnings := st.warnings }

/-- A re-ordering that keeps pages of equal `extraction_confidence` in their
relative order: for every occurring confidence value, the two lists restrict
to the same sublist. -/
def isStableReorderPages (l l' : List PageAnalysis) : Bool :=
  (l.map (·.extraction_confidence) ++ l'.map (·.extraction_confidence)).all fun c =>
    decide (l.filter (fun p => decide (p.extraction_confidence = c)) =
      l'.filter (fun p => decide (p.extraction_confidence = c)))

/-! ### Specification-side view of the dedup fold (used to reason about
`mergeScan`): the per-key candidate stream and the winner fold. -/

/-- One step of the per-key replacement: first candidate wins, later ones
replace only with strictly greater confidence. -/
def wstep (o : Option SeenVal) (v : SeenVal) : Option SeenVal :=
  match o with
  | none => some v
  | some cur => if v.2.2 > cur.2.2 then some v else some cur

def wfoldO (o : Option SeenVal) (items : List SeenVal) : Option SeenVal :=
  items.foldl wstep o

def wfoldSome (a : SeenVal) (xs : List SeenVal) : SeenVal :=
  xs.foldl (fun c x => if x.2.2 > c.2.2 then x else c) a

/-- Keyed candidates contributed by one page, in finding order. -/
def pageItems (p : PageAnalysis) : List (String × SeenVal) :=
  p.findings.filterMap fun f =>
    let k := keyOf f
    if k = "" then none
    else some (k, (f, p.page_number, p.extraction_confidence))

def seenFoldM (m : List (String × SeenVal)) (items : List (String × SeenVal)) :
    List (String × SeenVal) :=
  items.foldl (fun m kv => seenUpdate m kv.1 kv.2) m

/-- The stream of candidates for dedup key `k`, across pages in order. -/
def candStream (pages : List PageAnalysis) (k : String) : List SeenVal :=
  (((pages.flatMap pageItems).filter (fun kv => decide (kv.1 = k))).map (·.2))

/-- Maximum confidence of a nonempty candidate stream (0 for the empty
one, which is never used). -/
def bigM (c : ℚ) (xs : List SeenVal) : ℚ :=
  xs.foldl (fun m x => max m x.2.2) c

def maxC : List SeenVal → ℚ
  | [] => 0
  | x :: xs => bigM x.2.2 xs

/-! ## A JSON value model and `json.loads`

`json.loads` is embedded as a strict recursive-descent parser for the
RFC 8259 grammar over the characters that occur in LLM responses
(`\uXXXX` escapes are carried through simplified; `NaN/Infinity`
extensions are not modelled).  Parsing requires the whole input to be
consumed up to trailing whitespace, as `json.loads` does.  JSON numbers
without fraction/exponent parse to `jint` (Python `int`), others to
`jnum` (Python `float`, modelled as `ℚ`). -/

inductive Json where
  | null
  | bool (b : Bool)
  | jint (n : Int)
  | jnum (q : ℚ)
  | str (s : String)
  | arr (elems : List Json)
  | obj (fields : List (String × Json))

def jsonWsChar (c : Char) : Bool := c = ' ' || c = '\t' || c = '\n' || c = '\r'

/-- String body after the opening quote. -/
def parseJStringBody : Nat → List Char → List Char → Option (String × List Char)
  | 0, _, _ => none
  | _ + 1, _, [] => none
  | _ + 1, acc, '"' :: rest => some (String.mk acc.reverse, rest)
  | fuel + 1, acc, '\\' :: e :: rest =>
      let c :=
        if e = 'n' then '\n' else if e = 't' then '\t'
        else if e = 'r' then '\r' else if e = 'b' then Char.ofNat 8
        else if e = 'f' then Char.ofNat 12 else e
      parseJStringBody fuel (c :: acc) rest
  | _ + 1, _, ['\\'] => none
  | fuel + 1, acc, c :: rest => parseJStringBody fuel (c :: acc) rest

/-- JSON number: `-? digits ('.' digits)? ([eE] sign? digits)?`. -/
def parseJNumber (l : List Char) : Option (Json × List Char) :=
  let (neg, l1) := match l with
    | '-' :: r => (true, r)
    | _ => (false, l)
  let ip := l1.takeWhile Char.isDigit
  if ip.isEmpty then none
  else
    let l2 := l1.drop ip.length
    let n : Nat := ip.foldl (fun a c => 10 * a + (c.toNat - 48)) 0
    let (frac, l3) := match l2 with
      | '.' :: r =>
          let fs := r.takeWhile Char.isDigit
          if fs.isEmpty then (none, l2) else (some fs, r.drop fs.length)
      | _ => (none, l2)
    match frac, l3 with
    | none, 'e' :: _ => parseJNumExp neg n 0 0 l3
    | none, 'E' :: _ => parseJNumExp neg n 0 0 l3
    | none, _ =>
        let v : Int := if neg then -(n : Int) else (n : Int)
        some (Json.jint v, l3)
    | some fs, _ =>
        let fn : Nat := fs.foldl (fun a c => 10 * a + (c.toNat - 48)) 0
        parseJNumExp neg n (qDiv (fn : ℚ) (qPow10 fs.length)) 1 l3
where
  parseJNumExp (neg : Bool) (n : Nat) (fr : ℚ) (isFloat : Nat) (l : List Char) :
      Option (Json × List Char) :=
    let base : ℚ := qAdd (n : ℚ) fr
    match l with
    | 'e' :: r => parseExpTail neg base r
    | 'E' :: r => parseExpTail neg base r
    | _ =>
        if isFloat = 0 then
          some (Json.jint (if neg then -(n : Int) else (n : Int)), l)
        else
          some (Json.jnum (if neg then qNeg base else base), l)
  parseExpTail (neg : Bool) (base : ℚ) (r : List Char) : Option (Json × List Char) :=
    let (eneg, r1) := match r with
      | '-' :: t => (true, t)
      | '+' :: t => (false, t)
      | _ => (false, r)
    let es := r1.takeWhile Char.isDigit
    if es.isEmpty then none
    else
      let e : Nat := es.foldl (fun a c => 10 * a + (c.toNat - 48)) 0
      let m : ℚ := if eneg then qDiv 1 (qPow10 e) else qPow10 e
      some (Json.jnum (qMul (if neg then qNeg base else base) m), r1.drop es.length)

mutual

def parseJValue : Nat → List Char → Option (Json × List Char)
  | 0, _ => none
  | fuel + 1, l =>
      let l := l.dropWhile jsonWsChar
      match l with
      | [] => none
      | '{' :: rest => parseJObjBody fuel rest []
      | '[' :: rest => parseJArrBody fuel rest []
      | '"' :: rest =>
          (parseJStringBody (rest.length + 1) [] rest).map fun sr => (Json.str sr.1, sr.2)
      | 't' :: rest =>
          if listStartsChar rest "rue".toList then some (Json.bool true, rest.drop 3) else none
      | 'f' :: rest =>
          if listStartsChar rest "alse".toList then some (Json.bool false, rest.drop 4) else none
      | 'n' :: rest =>
          if listStartsChar rest "ull".toList then some (Json.null, rest.drop 3) else none
      | _ => parseJNumber l

def parseJObjBody : Nat → List Char → List (String × Json) →
    Option (Json × List Char)
  | 0, _, _ => none
  | fuel + 1, l, acc =>
      let l := l.dropWhile jsonWsChar
      match l with
      | '}' :: rest => if acc.isEmpty then some (Json.obj [], rest) else none
      | '"' :: rest =>
          match parseJStringBody (rest.length + 1) [] rest with
          | none => none
          | some (key, r1) =>
              match r1.dropWhile jsonWsChar with
              | ':' :: r2 =>
                  match parseJValue fuel r2 with
                  | none => none
                  | some (v, r3) =>
                      match r3.dropWhile jsonWsChar with
                      | ',' :: r4 => parseJObjBody fuel r4 ((key, v) :: acc)
                      | '}' :: r4 => some (Json.obj ((key, v) :: acc).reverse, r4)
                      | _ => none
              | _ => none
      | _ => none

def parseJArrBody : Nat → List Char → List Json → Option (Json × List Char)
  | 0, _, _ => none
  | fuel + 1, l, acc =>
      let l0 := l.dropWhile jsonWsChar
      match l0 with
      | ']' :: rest =>
          if acc.isEmpty then some (Json.arr [], rest)
          else
            match parseJValue fuel l0 with
            | none => none
            | some _ => none
      | _ =>
          match parseJValue fuel l0 with
          | none => none
          | some (v, r1) =>
              match r1.dropWhile jsonWsChar with
              | ',' :: r2 => parseJArrBody fuel r2 (v :: acc)
              | ']' :: r2 => some (Json.arr ((v :: acc).reverse), r2)
              | _ => none

end

/-- `json.loads` (strict: the entire input must be one JSON document). -/
def jsonParse (s : String) : Option Json :=
  match parseJValue (s.length + 2) s.toList with
  | some (v, rest) => if (rest.dropWhile jsonWsChar).isEmpty then some v else none
  | none => none

/-! ## `re.search(r'```(?:json)?\s*(.*?)\s*```', response, re.DOTALL)` -/

/-- The suffix after the first occurrence of three backticks. -/
def findFence : List Char → Option (List Char)
  | [] => none
  | l@(_ :: rest) =>
      if listStartsChar l ['`', '`', '`'] then some (l.drop 3) else findFence rest

/-- The shortest content such that the remainder matches `\s*`​ followed by a
closing fence (the lazy `(.*?)`). -/
def fenceSplit : Nat → List Char → Option (List Char)
  | 0, _ => none
  | fuel + 1, l =>
      if listStartsChar (l.dropWhile Char.isWhitespace) ['`', '`', '`'] then some []
      else
        match l with
        | [] => none
        | c :: rest => (fenceSplit fuel rest).map (c :: ·)

/-- The captured group of the code-fence regex, if the regex matches. -/
def extractCodeFence (s : String) : Option String :=
  match findFence s.toList with
  | none => none
  | some r0 =>
      let r1 := if listStartsChar r0 ['j', 's', 'o', 'n'] then r0.drop 4 else r0
      let r2 := r1.dropWhile Char.isWhitespace
      (fenceSplit (r2.length + 1) r2).map String.mk

/-! ## Python views of JSON values used by `analyze_page_with_llm` -/

def assocGetJ (fs : List (String × Json)) (k : String) : Option Json :=
  match fs with
  | [] => none
  | (k', v) :: rest => if k' = k then some v else assocGetJ rest k

def jGet (j : Json) (k : String) : Option Json :=
  match j with
  | Json.obj fs => assocGetJ fs k
  | _ => none

def jGetD (j : Json) (k : String) (d : Json) : Json := (jGet j k).getD d

def jTruthy : Json → Bool
  | Json.null => false
  | Json.bool b => b
  | Json.jint n => n ≠ 0
  | Json.jnum q => q ≠ 0
  | Json.str s => s ≠ ""
  | Json.arr l => !l.isEmpty
  | Json.obj l => !l.isEmpty

/-- `data.get(k, []) or []`, read as a list (the code iterates over it). -/
def jGetList (j : Json) (k : String) : List Json :=
  match jGet j k with
  | some (Json.arr l) => l
  | _ => []

def jSetField (j : Json) (k : String) (v : Json) : Json :=
  match j with
  | Json.obj fs => Json.obj (dictSet fs k v)
  | j => j

/-! Python `str(x)` on a parsed JSON value (container repr approximated:
quoting inside containers is not escape-faithful, and no theorem depends
on it). -/

mutual

def pyStrGo : Bool → Json → String
  | inner, Json.str s => if inner then "'" ++ s ++ "'" else s
  | _, Json.null => "None"
  | _, Json.bool true => "True"
  | _, Json.bool false => "False"
  | _, Json.jint n => toString n
  | _, Json.jnum q => pyFloatRepr q
  | _, Json.arr l => "[" ++ pyStrL l ++ "]"
  | _, Json.obj l => "\x7b" ++ pyStrO l ++ "\x7d"

def pyStrL : List Json → String
  | [] => ""
  | [x] => pyStrGo true x
  | x :: xs => pyStrGo true x ++ ", " ++ pyStrL xs

def pyStrO : List (String × Json) → String
  | [] => ""
  | [(k, v)] => "'" ++ k ++ "': " ++ pyStrGo true v
  | (k, v) :: xs => "'" ++ k ++ "': " ++ pyStrGo true v ++ ", " ++ pyStrO xs

end

def pyStr (j : Json) : String := pyStrGo false j

/-- `f"{x}"` / `str(x)` formatting of a field value. -/
def jFmt (j : Json) : String :=
  match j with
  | Json.str s => s
  | j => pyStr j

/-- An optional string field (`None`/missing → `None`; non-string values are
carried through `str`, where Python would store the raw object). -/
def jOptStr : Option Json → Option String
  | none => none
  | some Json.null => none
  | some (Json.str s) => some s
  | some v => some (pyStr v)

/-- `float(x)` on a JSON value (strings restricted to the `[\d.]+` shapes
occurring here). -/
def jToRat : Json → Option ℚ
  | Json.jint n => some (n : ℚ)
  | Json.jnum q => some q
  | Json.bool b => some (if b then 1 else 0)
  | Json.str s => pyFloatOfRun s
  | _ => none

/-- The `test_name`/`value` projection handed to `should_run_llm_b`
(truthiness preserved: falsy raw values project to `""`). -/
def toVFinding (j : Json) : VFinding :=
  { test_name :=
      match jGet j "test_name" with
      | some (Json.str s) => s
      | some v => if jTruthy v then pyStr v else ""
      | none => ""
    value :=
      match jGet j "value" with
      | some v => if jTruthy v then pyStr v else ""
      | none => "" }

/-- `validate_numeric_values`: returns the warnings it appends (the findings
list itself is returned unchanged by the source). -/
def validate_numeric_values (findings : List Json) (ocr_text : String) :
    List String :=
  findings.foldl
    (fun ws f =>
      let value := jGetD f "value" (Json.str "")
      if jTruthy value then
        match firstNumRun (pyStr value) with
        | some np =>
            if strContains ocr_text np then ws
            else
              ws ++ ["Value '" ++ jFmt value ++ "' for '" ++
                (match jGet f "test_name" with
                 | none => "Unknown"
                 | some v => jFmt v) ++ "' not verified in OCR"]
        | none => ws
      else ws)
    []

/-- `MedicalFinding(...)` construction from a raw finding dict. -/
def toMedicalFinding (f : Json) : MFinding :=
  { test_name :=
      match jGet f "test_name" with
      | none => "Unknown"
      | some (Json.str s) => s
      | some v => pyStr v
    value := pyStr (jGetD f "value" (Json.str ""))
    unit := jOptStr (jGet f "unit")
    reference_range := jOptStr (jGet f "reference_range")
    status := jOptStr (jGet f "status")
    interpretation := jOptStr (jGet f "interpretation") }

/-! ## `analyze_page_with_llm` -/

/-- The result of the outer exception handler.  The exception text is
environment-specific (`str(e)` of a `JSONDecodeError`/`ValueError`); a
fixed stand-in message is used, and no theorem depends on it. -/
def analyzeErrorResult (page : PageOCRResult) : PageAnalysis :=
  { page_number := page.page_number
    patient_identity := {}
    report_metadata := {}
    findings := []
    diagnosis := none
    recommendations := []
    warnings := ["LLM analysis error: unhandled exception"]
    extraction_confidence := 0
    raw_text_preview := if page.text ≠ "" then page.text.take 200 else "" }

/-- The happy continuation of `analyze_page_with_llm` once Stage-A JSON has
been obtained.  `llmB` is the oracle for `validate_with_llm_b` (which
itself falls back to its input on any internal failure, so it is total). -/
def analyzeCont (page : PageOCRResult) (llmB : Json → Json) (data0 : Json) :
    PageAnalysis :=
  let raw0 := jGetList data0 "findings"
  let sr := should_run_llm_b (raw0.map toVFinding) page.text
  let data :=
    if sr.1 then llmB data0
    else if !sr.2.isEmpty then
      jSetField data0 "warnings"
        (Json.arr (jGetList data0 "warnings" ++ sr.2.map Json.str))
    else data0
  let warnings0 := (jGetList data "warnings").map jFmt
  let pd :=
    match jGet data "patient_identity" with
    | some j => if jTruthy j then j else Json.obj []
    | none => Json.obj []
  let vp := validate_patient_identity (jOptStr (jGet pd "name")) page.text warnings0
  let identity : PIdentity :=
    { name := vp.1
      id := jOptStr (jGet pd "id")
      dob := jOptStr (jGet pd "dob")
      gender := jOptStr (jGet pd "gender")
      age := jOptStr (jGet pd "age") }
  let rd :=
    match jGet data "report_metadata" with
    | some j => if jTruthy j then j else Json.obj []
    | none => Json.obj []
  let metadata : RMetadata :=
    { report_type := jOptStr (jGet rd "report_type")
      date := jOptStr (jGet rd "date")
      lab_name := jOptStr (jGet rd "lab_name")
      referring_physician := jOptStr (jGet rd "referring_physician") }
  let raw2 := jGetList data "findings"
  let warnings2 := vp.2 ++ validate_numeric_values raw2 page.text
  let findings := raw2.map toMedicalFinding
  match jToRat (jGetD data "extraction_confidence" (Json.jnum (mkRat 1 2))) with
  | none => analyzeErrorResult page
  | some conf =>
      { page_number := page.page_number
        patient_identity := identity
        report_metadata := metadata
        findings := findings
        diagnosis := jOptStr (jGet data "diagnosis")
        recommendations := (jGetList data "recommendations").map jFmt
        warnings := warnings2
        extraction_confidence := conf
        raw_text_preview :=
          if page.text.length > 200 then page.text.take 200 else page.text }

/-- `analyze_page_with_llm`, as a function of the Stage-A LLM response text
(`llm_response`) and the Stage-B oracle.  Its parse chain is: direct
`json.loads`, then code-fence extraction; there is no balanced-brace
fallback.  A fence whose content is not valid JSON raises out of the inner
`try` and lands in the outer exception handler. -/
def analyze_page_with_llm (page : PageOCRResult) (llm_response : String)
    (llmB : Json → Json) : PageAnalysis :=
  if pyTrim page.text = "" then
    { page_number := page.page_number
      patient_identity := {}
      report_metadata := {}
      findings := []
      diagnosis := none
      recommendations := []
      warnings := ["No text content on this page"]
      extraction_confidence := 0
      raw_text_preview := "" }
  else
    match jsonParse llm_response with
    | some data => analyzeCont page llmB data
    | none =>
        match extractCodeFence llm_response with
        | none =>
            { page_number := page.page_number
              patient_identity := {}
              report_metadata := {}
              findings := []
              diagnosis := none
              recommendations := []
              warnings := ["Failed to parse LLM response as JSON"]
              extraction_confidence := 0
              raw_text_preview := page.text.take 200 }
        | some inner =>
            match jsonParse inner with
            | some data => analyzeCont page llmB data
            | none => analyzeErrorResult page

/-! ## Claim-side definitions (formalisations of claim wordings, for
comparison with the embedded code) and concrete instances -/

/-- C3's keep-predicate as worded: at least 50 % of the name's
whitespace-split tokens *of length > 2* appear case-insensitively. -/
def claimC3_keeps (name text : String) : Bool :=
  let toks := (pySplitWs name).filter (fun t => t.length > 2)
  decide (2 * toks.countP (fun t => strContains (pyLower text) (pyLower t)) ≥ toks.length)

/-- C2's verified-predicate as worded: a `test_name` token of length > 2
appears case-insensitively, and the value or its first numeric substring
appears verbatim. -/
def claimC2_verified (f : VFinding) (text : String) : Bool :=
  (((pySplitWs (pyLower f.test_name)).filter (fun w => w.length > 2)).any
    (fun w => strContains (pyLower text) w)) &&
  (strContains text f.value ||
    (match firstNumRun f.value with
     | some np => strContains text np
     | none => false))

/-- C2's decision rule as worded: `U ≥ max(1, ⌈0.2·n⌉)`, false on empty. -/
def claimC2_needs (findings : List VFinding) (text : String) : Bool :=
  if findings.isEmpty then false
  else
    decide (findings.countP (fun f => !claimC2_verified f text) ≥
      max 1 ((findings.length + 4) / 5))

/-- The pure closed form of `verify_finding_in_ocr`'s boolean component. -/
def codeVerified (f : VFinding) (text : String) : Bool :=
  f.test_name ≠ "" && f.value ≠ "" &&
  (let nw := (pySplitWs (pyLower f.test_name)).filter (fun w => w.length > 2)
   !nw.isEmpty && nw.any (fun w => strContains (pyLower text) w)) &&
  (strContains text (pyTrim f.value) ||
    (match firstNumRun (pyTrim f.value) with
     | some np => strContains text np
     | none => true))

/-- The treatment recommendation list of a view (empty when the key chain is
absent). -/
def treatmentRecsOf (v : AgentView) : List ARecommendation :=
  match v.recommendations with
  | none => []
  | some r => r.treatment.getD []

/-- C2 counterexample input: six findings, five deterministically verified,
one not. -/
def c2findings : List VFinding :=
  [⟨"Hemoglobin", "13"⟩, ⟨"Hemoglobin", "13"⟩, ⟨"Hemoglobin", "13"⟩,
   ⟨"Hemoglobin", "13"⟩, ⟨"Hemoglobin", "13"⟩, ⟨"zzz qqq", "999"⟩]

/-- C5 failing input: a neutrophil count of 100 and a creatinine of 5.0,
both beyond the declared `CRITICAL_THRESHOLDS`. -/
def c5findings : FindingsMap :=
  { clinical := some [{ title := "neutrophil count", value := "100" },
                      { title := "creatinine", value := "5.0" }] }

/-- C9 counterexample input: one placeholder imaging finding. -/
def c9view : AgentView :=
  { findings := { imaging := some [{ title := "string", value := "string" }] } }

/-- C1 witness input: empty pathology list (no confirmed diagnosis), one
treatment recommendation, one clinical trial. -/
def c1view : AgentView :=
  { findings := { pathology := some [] }
    recommendations := some { treatment := some [{ text := "start chemo", category := "treatment" }] }
    clinical_trials := some [{ name := "TrialX" }] }

/-- C6 counterexample pages: colliding dedup key, distinct confidences. -/
def c6page1 : PageAnalysis :=
  { page_number := 1, findings := [{ test_name := "Hgb", value := "13" }],
    extraction_confidence := mkRat 9 10 }

def c6page2 : PageAnalysis :=
  { page_number := 2, findings := [{ test_name := "Hgb", value := "12" }],
    extraction_confidence := mkRat 1 2 }

/-- C7 counterexample page and response (valid JSON embedded in prose,
no code fence). -/
def c7page : PageOCRResult :=
  { page_number := 1, text := "Hemoglobin 13.2 g/dL", blocks := [] }

def c7resp : String := "Here is the extraction: \x7b\"findings\": []\x7d hope this helps"

/-! # Theorems -/

/-! ## C10 — biomarker filtering leaves unknown-category lists unchanged -/

/-- C10: `filter_biomarkers_by_disease` returns its input unchanged when the
disease category is `"unknown"` or when the category's whitelist is empty
(in particular for any category absent from `DISEASE_BIOMARKER_MAP`), so no
biomarker is removed for an undetected disease. -/
theorem C10_unknown_category_filters_nothing (biomarkers : List AFinding)
    (cat : String) (h : cat = "unknown" ∨ DISEASE_BIOMARKER_MAP cat = []) :
    filter_biomarkers_by_disease biomarkers cat = biomarkers := by
  rcases h with h | h
  · simp [filter_biomarkers_by_disease, h]
  · by_cases hu : cat = "unknown"
    · simp [filter_biomarkers_by_disease, hu]
    · simp [filter_biomarkers_by_disease, hu, h]

theorem C10_unknown_category_filters_nothing_witness :
    ("unknown" = "unknown" ∨ DISEASE_BIOMARKER_MAP "unknown" = []) ∧
      filter_biomarkers_by_disease [{ title := "HER2" }] "unknown" =
        [{ title := "HER2" }] :=
  ⟨Or.inl rfl,
    C10_unknown_category_filters_nothing [{ title := "HER2" }] "unknown" (Or.inl rfl)⟩

/-! ## C5 — critical-lab escalation misses neutrophil and creatinine -/

/-- C5 (code bug): on a findings map whose clinical list holds a neutrophil
count of 100 (< 500) and a creatinine of 5.0 (> 3.0),
`check_critical_findings` reports no critical hit, no complexity override
and no warning — the function never consults the `neutrophil` and
`creatinine` entries of `CRITICAL_THRESHOLDS`, contrary to the claim. -/
theorem C5_neutrophil_creatinine_not_escalated :
    check_critical_findings c5findings = (false, none, []) := by decide

/-! ## C8 — specialist overall confidence has a three-tier rule -/

/-- C8 counterexample: a single medium-confidence finding yields `"low"`,
although the findings list is nonempty — refuting both the two-tier
high/medium rule and « `low` exactly when empty ». -/
theorem C8_counterexample :
    radiology_overall_confidence [{ confidence := "medium" }] = "low" ∧
      ([{ confidence := "medium" }] : List RFinding) ≠ [] := by decide

/-- C8 (amended): overall confidence is `high` iff the findings are nonempty
with ≥ 70 % high-confidence findings, `medium` iff nonempty with a
high-confidence share in [30 %, 70 %), and `low` iff the list is empty or
fewer than 30 % of the findings have high confidence. -/
theorem C8_overall_confidence_tiers (findings : List RFinding) :
    (radiology_overall_confidence findings = "high" ↔
      findings ≠ [] ∧
        10 * findings.countP (fun f => f.confidence == "high") ≥ 7 * findings.length) ∧
    (radiology_overall_confidence findings = "medium" ↔
      findings ≠ [] ∧
        10 * findings.countP (fun f => f.confidence == "high") < 7 * findings.length ∧
        10 * findings.countP (fun f => f.confidence == "high") ≥ 3 * findings.length) ∧
    (radiology_overall_confidence findings = "low" ↔
      findings = [] ∨
        10 * findings.countP (fun f => f.confidence == "high") < 3 * findings.length) := by
  by_cases hne : findings = []
  · subst hne; simp [radiology_overall_confidence]
  · have he : findings.isEmpty = false := by
      cases findings with
      | nil => exact absurd rfl hne
      | cons a l => rfl
    unfold radiology_overall_confidence
    rw [he]
    simp only [Bool.false_eq_true, if_false]
    by_cases h7 : 10 * findings.countP (fun f => f.confidence == "high") ≥ 7 * findings.length
    · rw [if_pos h7]
      refine ⟨iff_of_true rfl ⟨hne, h7⟩, ?_, ?_⟩
      · constructor
        · intro hh; exact absurd hh (by decide)
        · rintro ⟨-, hlt, -⟩; omega
      · constructor
        · intro hh; exact absurd hh (by decide)
        · rintro (h | hlt)
          · exact absurd h hne
          · omega
    · rw [if_neg h7]
      by_cases h3 : 10 * findings.countP (fun f => f.confidence == "high") ≥ 3 * findings.length
      · rw [if_pos h3]
        refine ⟨?_, iff_of_true rfl ⟨hne, by omega, h3⟩, ?_⟩
        · constructor
          · intro hh; exact absurd hh (by decide)
          · rintro ⟨-, hge⟩; omega
        · constructor
          · intro hh; exact absurd hh (by decide)
          · rintro (h | hlt)
            · exact absurd h hne
            · omega
      · rw [if_neg h3]
        refine ⟨?_, ?_, iff_of_true rfl (Or.inr (by omega))⟩
        · constructor
          · intro hh; exact absurd hh (by decide)
          · rintro ⟨-, hge⟩; omega
        · constructor
          · intro hh; exact absurd hh (by decide)
          · rintro ⟨-, -, hge⟩; omega

/-! ## C3 — patient-name guard counts all tokens in the denominator -/

/-- C3 counterexample: for the name `"Jo Li Smith"` over OCR text containing
`Smith`, 100 % of the tokens of length > 2 appear (the claim keeps the
name), yet the code removes it with the hallucination warning, because its
ratio divides by all three tokens. -/
theorem C3_counterexample :
    claimC3_keeps "Jo Li Smith" "Patient: Smith Record" = true ∧
      validate_patient_identity (some "Jo Li Smith") "Patient: Smith Record" [] =
        (none,
          ["Patient name 'Jo Li Smith' not verified in OCR text - removed to prevent hallucination"]) := by
  decide

/-- C3 (amended): for every nonempty extracted name, the name is kept iff
its whitespace-split token list (of the stripped, lower-cased name) is
nonempty and at least 50 % of *all* its tokens are tokens of length > 2
appearing in the lower-cased OCR text; otherwise the name is dropped and
exactly the hallucination warning is appended. -/
theorem C3_name_guard_characterisation (nm text : String) (ws : List String)
    (h : nm ≠ "") :
    ((validate_patient_identity (some nm) text ws).1 = some nm ↔
      (pySplitWs (pyLower (pyTrim nm)) ≠ [] ∧
        2 * ((pySplitWs (pyLower (pyTrim nm))).countP fun p =>
            strContains (pyLower text) p && p.length > 2) ≥
          (pySplitWs (pyLower (pyTrim nm))).length)) ∧
    ((validate_patient_identity (some nm) text ws).2 =
      if (pySplitWs (pyLower (pyTrim nm)) ≠ [] ∧
          2 * ((pySplitWs (pyLower (pyTrim nm))).countP fun p =>
              strContains (pyLower text) p && p.length > 2) ≥
            (pySplitWs (pyLower (pyTrim nm))).length) then ws
      else ws ++
        ["Patient name '" ++ nm ++ "' not verified in OCR text - removed to prevent hallucination"]) := by
  have hred :
      validate_patient_identity (some nm) text ws =
        (if (decide ((pySplitWs (pyLower (pyTrim nm))).length > 0) &&
              decide (2 * ((pySplitWs (pyLower (pyTrim nm))).countP fun p =>
                  strContains (pyLower text) p && decide (p.length > 2)) ≥
                (pySplitWs (pyLower (pyTrim nm))).length)) = true then
          (some nm, ws)
        else
          (none, ws ++
            ["Patient name '" ++ nm ++
              "' not verified in OCR text - removed to prevent hallucination"])) := by
    simp only [validate_patient_identity]
    rw [if_neg h]
  have key :
      ((decide ((pySplitWs (pyLower (pyTrim nm))).length > 0) &&
          decide (2 * ((pySplitWs (pyLower (pyTrim nm))).countP fun p =>
              strContains (pyLower text) p && decide (p.length > 2)) ≥
            (pySplitWs (pyLower (pyTrim nm))).length)) = true) ↔
        (pySplitWs (pyLower (pyTrim nm)) ≠ [] ∧
          2 * ((pySplitWs (pyLower (pyTrim nm))).countP fun p =>
              strContains (pyLower text) p && p.length > 2) ≥
            (pySplitWs (pyLower (pyTrim nm))).length) := by
    rw [Bool.and_eq_true, decide_eq_true_eq, decide_eq_true_eq]
    constructor
    · rintro ⟨h1, h2⟩
      refine ⟨?_, h2⟩
      intro hnil
      rw [hnil] at h1
      simp at h1
    · rintro ⟨h1, h2⟩
      refine ⟨?_, h2⟩
      cases hp : pySplitWs (pyLower (pyTrim nm)) with
      | nil => exact absurd hp h1
      | cons a l => simp [hp]
  by_cases hc : (pySplitWs (pyLower (pyTrim nm)) ≠ [] ∧
      2 * ((pySplitWs (pyLower (pyTrim nm))).countP fun p =>
          strContains (pyLower text) p && p.length > 2) ≥
        (pySplitWs (pyLower (pyTrim nm))).length)
  · rw [hred, if_pos (key.mpr hc)]
    exact ⟨iff_of_true rfl hc, by rw [if_pos hc]⟩
  · rw [hred, if_neg (fun hb => hc (key.mp hb))]
    refine ⟨iff_of_false (by simp) hc, by rw [if_neg hc]⟩

theorem C3_name_guard_characterisation_witness :
    ("Jane Doe" ≠ "") ∧
      (((validate_patient_identity (some "Jane Doe") "Patient: Jane Doe" []).1 =
          some "Jane Doe" ↔
        (pySplitWs (pyLower (pyTrim "Jane Doe")) ≠ [] ∧
          2 * ((pySplitWs (pyLower (pyTrim "Jane Doe"))).countP fun p =>
              strContains (pyLower "Patient: Jane Doe") p && p.length > 2) ≥
            (pySplitWs (pyLower (pyTrim "Jane Doe"))).length)) ∧
      ((validate_patient_identity (some "Jane Doe") "Patient: Jane Doe" []).2 =
        if (pySplitWs (pyLower (pyTrim "Jane Doe")) ≠ [] ∧
            2 * ((pySplitWs (pyLower (pyTrim "Jane Doe"))).countP fun p =>
                strContains (pyLower "Patient: Jane Doe") p && p.length > 2) ≥
              (pySplitWs (pyLower (pyTrim "Jane Doe"))).length) then ([] : List String)
        else [] ++
          ["Patient name '" ++ "Jane Doe" ++ "' not verified in OCR text - removed to prevent hallucination"])) :=
  ⟨by decide, C3_name_guard_characterisation "Jane Doe" "Patient: Jane Doe" [] (by decide)⟩

/-! ## C2 — deterministic verifier uses a floor threshold, not ceiling -/

/-- C2 counterexample: six findings of which exactly one is unverified.
The claim's rule `U ≥ max(1, ⌈0.2·6⌉) = 2` says Stage-B is not required,
but `should_run_llm_b` uses `max(1, int(6·0.2)) = 1` and returns true. -/
theorem C2_counterexample :
    (should_run_llm_b c2findings "Hemoglobin 13").1 = true ∧
      claimC2_needs c2findings "Hemoglobin 13" = false := by decide

theorem verify_fst_eq_codeVerified (f : VFinding) (t : String) :
    (verify_finding_in_ocr f t).1 = codeVerified f t := by
  unfold verify_finding_in_ocr codeVerified
  by_cases h : (f.test_name = "" || f.value = "") = true
  · rw [if_pos h]
    simp only [Bool.or_eq_true, decide_eq_true_eq] at h
    rcases h with h | h <;> simp [h]
  · rw [if_neg h]
    simp only [Bool.or_eq_true, decide_eq_true_eq, not_or] at h
    obtain ⟨h1, h2⟩ := h
    have fst_ite : ∀ (c : Prop) (inst : Decidable c) (p q : Bool × List String),
        (@ite _ c inst p q).1 = @ite _ c inst p.1 q.1 := by
      intro c inst p q
      by_cases hc : c
      · rw [if_pos hc, if_pos hc]
      · rw [if_neg hc, if_neg hc]
    have bool_ite : ∀ b : Bool, (if b = true then true else false) = b := by decide
    rw [fst_ite, bool_ite, decide_eq_true h1, decide_eq_true h2]
    simp only [Bool.true_and]

theorem shouldRun_fold_count (t : String) (fs : List VFinding) :
    ∀ acc : Nat × List String,
      (fs.foldl
        (fun (acc : Nat × List String) finding =>
          let vw := verify_finding_in_ocr finding t
          (if vw.1 then acc.1 else acc.1 + 1, acc.2 ++ vw.2)) acc).1 =
        acc.1 + fs.countP (fun f => !(verify_finding_in_ocr f t).1) := by
  induction fs with
  | nil => intro acc; simp
  | cons a l ih =>
      intro acc
      simp only [List.foldl_cons, List.countP_cons]
      rw [ih]
      by_cases ha : (verify_finding_in_ocr a t).1 = true
      · simp [ha]
      · simp [Bool.not_eq_true] at ha
        simp [ha]
        omega

/-- C2 (amended): `should_run_llm_b` returns true iff the findings list is
nonempty and the number of findings failing the code's verification
predicate (`codeVerified`: both fields present and truthy, a test-name
token of length > 2 found case-insensitively, and the stripped value —
or its first numeric substring, or vacuously when it has none — found
verbatim) is at least `max(1, ⌊0.2·n⌋)`. -/
theorem C2_verifier_floor_threshold (fs : List VFinding) (t : String) :
    (should_run_llm_b fs t).1 = true ↔
      fs ≠ [] ∧
        fs.countP (fun f => !codeVerified f t) ≥ max 1 (fs.length / 5) := by
  unfold should_run_llm_b
  cases fs with
  | nil => simp
  | cons a l =>
      simp only [List.isEmpty_cons, Bool.false_eq_true, if_false]
      rw [shouldRun_fold_count t (a :: l) (0, [])]
      have hc : (a :: l).countP (fun f => !(verify_finding_in_ocr f t).1) =
          (a :: l).countP (fun f => !codeVerified f t) := by
        apply List.countP_congr
        intro f _
        rw [verify_fst_eq_codeVerified]
      rw [hc]
      simp [decide_eq_true_eq]

/-! ## C4 — the OCR content cache is dead code -/

/-- C4 (code bug): extracting the same bytes twice re-invokes the primary
OCR engine both times and never reads or writes the content cache: the
second component shows the cache unchanged and the engine invoked twice.
`get_cached_ocr`/`set_cached_ocr` exist but have no call sites, so no code
path consults the cache before an OCR call, contrary to the claim. -/
theorem C4_cache_never_consulted (paddle : FileBytes → List OCRTextBlock)
    (image_bytes : FileBytes) (st : OcrState) :
    (extract_structured_from_image paddle image_bytes
        (extract_structured_from_image paddle image_bytes st).2).1 =
      (extract_structured_from_image paddle image_bytes st).1 ∧
    (extract_structured_from_image paddle image_bytes st).2.cache = st.cache ∧
    (extract_structured_from_image paddle image_bytes
        (extract_structured_from_image paddle image_bytes st).2).2.cache = st.cache ∧
    (extract_structured_from_image paddle image_bytes
        (extract_structured_from_image paddle image_bytes st).2).2.paddleCalls =
      st.paddleCalls + 2 :=
  ⟨rfl, rfl, rfl, rfl⟩

/-! ## C9 — the cleaner mutates the input's nested containers -/

/-- C9 counterexample: on a view holding one placeholder imaging finding,
the input object after `clean_multi_agent_view` differs from the input
before the call — the shared nested `findings` dict was mutated in place. -/
theorem C9_counterexample : (clean_multi_agent_view c9view).2 ≠ c9view := by decide

/-- C9 (amended): `clean_multi_agent_view` copies the top level of the view,
so every top-level entry of the input (gender, staging, trials, warnings,
summary, confidence, complexity) is unchanged after the call — but the
nested `findings` and `recommendations` containers are shared with the
returned view and are mutated in place to the cleaned values. -/
theorem C9_shallow_copy_mutation (view : AgentView) :
    (clean_multi_agent_view view).2.patient_name = view.patient_name ∧
    (clean_multi_agent_view view).2.patient_age = view.patient_age ∧
    (clean_multi_agent_view view).2.patient_gender = view.patient_gender ∧
    (clean_multi_agent_view view).2.staging = view.staging ∧
    (clean_multi_agent_view view).2.clinical_trials = view.clinical_trials ∧
    (clean_multi_agent_view view).2.warnings = view.warnings ∧
    (clean_multi_agent_view view).2.executive_summary = view.executive_summary ∧
    (clean_multi_agent_view view).2.overall_confidence = view.overall_confidence ∧
    (clean_multi_agent_view view).2.case_complexity = view.case_complexity ∧
    (clean_multi_agent_view view).2.findings = (clean_multi_agent_view view).1.findings ∧
    (clean_multi_agent_view view).2.recommendations =
      (clean_multi_agent_view view).1.recommendations :=
  ⟨rfl, rfl, rfl, rfl, rfl, rfl, rfl, rfl, rfl, rfl, rfl⟩

/-! ## C1 — safety gating after cleaning -/

theorem sanitize_mem_unsafe (v : ValidationResult)
    (hv : v.is_safe_for_treatment_recs = false) (recs : List ARecommendation) :
    ∀ r ∈ sanitize_recommendations recs v,
      allowedRecCategories.contains (pyLower r.category) = true := by
  unfold sanitize_recommendations
  rw [hv]
  simp only [Bool.false_eq_true, if_false]
  suffices h : ∀ acc : List ARecommendation,
      (∀ r ∈ acc, allowedRecCategories.contains (pyLower r.category) = true) →
      ∀ r ∈ recs.foldl
        (fun acc rec =>
          if allowedRecCategories.contains (pyLower rec.category) then acc ++ [rec]
          else if diagnosticIntentTerms.any (fun term => strContains (pyLower rec.text) term) then
            acc ++ [{ rec with category := "diagnostic" }]
          else acc) acc,
        allowedRecCategories.contains (pyLower r.category) = true by
    exact h [] (by simp)
  induction recs with
  | nil => intro acc hacc; simpa using hacc
  | cons a l ih =>
      intro acc hacc
      simp only [List.foldl_cons]
      apply ih
      intro r hr
      by_cases h1 : allowedRecCategories.contains (pyLower a.category) = true
      · rw [if_pos h1] at hr
        rcases List.mem_append.mp hr with hr | hr
        · exact hacc r hr
        · simp at hr
          subst hr
          exact h1
      · rw [if_neg h1] at hr
        by_cases h2 :
            (diagnosticIntentTerms.any fun term => strContains (pyLower a.text) term) = true
        · rw [if_pos h2] at hr
          rcases List.mem_append.mp hr with hr | hr
          · exact hacc r hr
          · simp at hr
            subst hr
            show allowedRecCategories.contains (pyLower "diagnostic") = true
            decide
        · rw [if_neg h2] at hr
          exact hacc r hr

/-- C1: if, on the cleaned findings fed to the validator, the diagnosis is
not confirmed or pathology is not confirmed, then in the returned view the
treatment recommendation list contains only items whose (lower-cased)
category is a diagnostic category, and the clinical-trials list is empty. -/
theorem C1_safety_gating (view : AgentView)
    (h : is_diagnosis_confirmed (cleanedFindingsOf view) = false ∨
        has_pathology_confirmation (cleanedFindingsOf view) = false) :
    (∀ r ∈ treatmentRecsOf (clean_multi_agent_view view).1,
        allowedRecCategories.contains (pyLower r.category) = true) ∧
      (clean_multi_agent_view view).1.clinical_trials.getD [] = [] := by
  have hsafe : (viewValidation view).is_safe_for_treatment_recs = false := by
    unfold viewValidation validate_for_treatment_recommendations
    rcases h with h | h <;> simp [h]
  constructor
  · intro r hr
    cases hrec : view.recommendations with
    | none => simp [treatmentRecsOf, clean_multi_agent_view, hrec] at hr
    | some rm =>
        cases ht : rm.treatment with
        | none => simp [treatmentRecsOf, clean_multi_agent_view, hrec, ht] at hr
        | some tl =>
            have hmem : r ∈ sanitize_recommendations (cleanRecList tl) (viewValidation view) := by
              simpa [treatmentRecsOf, clean_multi_agent_view, hrec, ht] using hr
            exact sanitize_mem_unsafe _ hsafe _ r hmem
  · cases htr : view.clinical_trials with
    | none => simp [clean_multi_agent_view, htr]
    | some l => simp [clean_multi_agent_view, htr, hsafe]

theorem C1_safety_gating_witness :
    is_diagnosis_confirmed (cleanedFindingsOf c1view) = false ∧
      ((∀ r ∈ treatmentRecsOf (clean_multi_agent_view c1view).1,
          allowedRecCategories.contains (pyLower r.category) = true) ∧
        (clean_multi_agent_view c1view).1.clinical_trials.getD [] = []) :=
  ⟨by decide, C1_safety_gating c1view (Or.inl (by decide))⟩

/-! ## C7 — the Stage-A parse chain has no balanced-brace stage -/

set_option maxRecDepth 8192 in
/-- C7 counterexample: the response embeds the valid JSON object
`{"findings": []}` in surrounding prose without a code fence.  The claim
says the balanced-brace stage parses it; the code returns the empty
analysis with the parse-failure warning. -/
theorem C7_counterexample :
    (jsonParse "\x7b\"findings\": []\x7d").isSome = true ∧
      analyze_page_with_llm c7page c7resp id =
        { page_number := 1
          patient_identity := {}
          report_metadata := {}
          findings := []
          diagnosis := none
          recommendations := []
          warnings := ["Failed to parse LLM response as JSON"]
          extraction_confidence := 0
          raw_text_preview := "Hemoglobin 13.2 g/dL" } := by decide

/-- C7 (amended): `analyze_page_with_llm` parses by direct JSON and then
code-fence extraction only; whenever direct parsing fails and the response
contains no code-fence match, it returns the empty page analysis whose
single warning is "Failed to parse LLM response as JSON" — in particular a
valid JSON object embedded in prose without a fence is *not* parsed. -/
theorem C7_two_stage_parse_chain (page : PageOCRResult) (resp : String)
    (llmB : Json → Json) (h1 : pyTrim page.text ≠ "")
    (h2 : (jsonParse resp).isNone = true)
    (h3 : (extractCodeFence resp).isNone = true) :
    analyze_page_with_llm page resp llmB =
      { page_number := page.page_number
        patient_identity := {}
        report_metadata := {}
        findings := []
        diagnosis := none
        recommendations := []
        warnings := ["Failed to parse LLM response as JSON"]
        extraction_confidence := 0
        raw_text_preview := page.text.take 200 } := by
  have hj : jsonParse resp = none := by
    cases hx : jsonParse resp with
    | none => rfl
    | some v => rw [hx] at h2; simp at h2
  have hf : extractCodeFence resp = none := by
    cases hx : extractCodeFence resp with
    | none => rfl
    | some v => rw [hx] at h3; simp at h3
  unfold analyze_page_with_llm
  rw [if_neg h1, hj, hf]

theorem C7_two_stage_parse_chain_witness :
    (pyTrim (PageOCRResult.text ⟨3, "some text", []⟩) ≠ "") ∧
      ((jsonParse "no json at all").isNone = true) ∧
      ((extractCodeFence "no json at all").isNone = true) ∧
      analyze_page_with_llm ⟨3, "some text", []⟩ "no json at all" id =
        { page_number := 3
          patient_identity := {}
          report_metadata := {}
          findings := []
          diagnosis := none
          recommendations := []
          warnings := ["Failed to parse LLM response as JSON"]
          extraction_confidence := 0
          raw_text_preview := ("some text" : String).take 200 } :=
  ⟨by decide, by decide, by decide,
    C7_two_stage_parse_chain ⟨3, "some text", []⟩ "no json at all" id
      (by decide) (by decide) (by decide)⟩

/-! ## C6 — merge is order-sensitive; only the per-key winner is stable -/

/-- C6 counterexample: swapping two pages of *distinct* confidences (a
stable re-ordering: every confidence class keeps its relative order)
changes the merge output — the swapped order emits a replacement warning
the original order does not. -/
theorem C6_counterexample :
    isStableReorderPages [c6page1, c6page2] [c6page2, c6page1] = true ∧
      merge_page_analyses [c6page1, c6page2] ≠ merge_page_analyses [c6page2, c6page1] := by
  decide

theorem scanFinding_seen (pn : Nat) (conf : ℚ) (st : SeenState) (f : MFinding) :
    (scanFinding pn conf st f).seen =
      (if keyOf f = "" then st.seen
       else seenUpdate st.seen (keyOf f) (f, pn, conf)) := by
  unfold scanFinding
  by_cases hk : keyOf f = ""
  · rw [if_pos hk, if_pos hk]
  · rw [if_neg hk, if_neg hk]
    cases assocGetD st.seen (keyOf f) <;> rfl

theorem findings_fold_seen (pn : Nat) (conf : ℚ) (fs : List MFinding) :
    ∀ st : SeenState,
      (fs.foldl (scanFinding pn conf) st).seen =
        seenFoldM st.seen
          (fs.filterMap fun f =>
            if keyOf f = "" then none else some (keyOf f, (f, pn, conf))) := by
  induction fs with
  | nil => intro st; rfl
  | cons f fs ih =>
      intro st
      simp only [List.foldl_cons, List.filterMap_cons]
      by_cases hk : keyOf f = ""
      · rw [if_pos hk, ih]
        have : (scanFinding pn conf st f).seen = st.seen := by
          rw [scanFinding_seen, if_pos hk]
        rw [this]
      · rw [if_neg hk, ih]
        have : (scanFinding pn conf st f).seen =
            seenUpdate st.seen (keyOf f) (f, pn, conf) := by
          rw [scanFinding_seen, if_neg hk]
        rw [this]
        rfl

theorem seenFoldM_append (m : List (String × SeenVal)) (a b : List (String × SeenVal)) :
    seenFoldM m (a ++ b) = seenFoldM (seenFoldM m a) b := by
  unfold seenFoldM
  exact List.foldl_append _ _ _ _

theorem pageItems_eq (p : PageAnalysis) :
    pageItems p =
      p.findings.filterMap fun f =>
        if keyOf f = "" then none
        else some (keyOf f, (f, p.page_number, p.extraction_confidence)) := rfl

theorem mergeScan_fold_seen (pages : List PageAnalysis) :
    ∀ st : SeenState,
      ((pages.foldl
        (fun st p => p.findings.foldl (scanFinding p.page_number p.extraction_confidence) st)
        st).seen) = seenFoldM st.seen (pages.flatMap pageItems) := by
  induction pages with
  | nil => intro st; rfl
  | cons p rest ih =>
      intro st
      simp only [List.foldl_cons, List.flatMap_cons]
      rw [ih, seenFoldM_append, findings_fold_seen, pageItems_eq]

theorem mergeScan_seen (pages : List PageAnalysis) :
    (mergeScan pages).seen = seenFoldM [] (pages.flatMap pageItems) := by
  unfold mergeScan
  rw [mergeScan_fold_seen]

theorem assocGetD_dictSet_same (m : List (String × SeenVal)) (k : String) (v : SeenVal) :
    assocGetD (dictSet m k v) k = some v := by
  induction m with
  | nil => simp [dictSet, assocGetD]
  | cons kv rest ih =>
      by_cases h : kv.1 = k
      · simp [dictSet, assocGetD, h]
      · simp [dictSet, assocGetD, h, ih]

theorem assocGetD_dictSet_ne (m : List (String × SeenVal)) (k k' : String) (v : SeenVal)
    (h : k' ≠ k) :
    assocGetD (dictSet m k v) k' = assocGetD m k' := by
  induction m with
  | nil =>
      simp only [dictSet, assocGetD]
      rw [if_neg (fun hh : k = k' => h hh.symm)]
  | cons kv rest ih =>
      by_cases hk : kv.1 = k
      · simp only [dictSet]
        rw [if_pos hk]
        simp only [assocGetD]
        rw [if_neg (fun hh : k = k' => h hh.symm),
          if_neg (fun hh : kv.1 = k' => h ((hk.symm.trans hh).symm))]
      · simp only [dictSet]
        rw [if_neg hk]
        simp only [assocGetD]
        by_cases hk' : kv.1 = k'
        · rw [if_pos hk', if_pos hk']
        · rw [if_neg hk', if_neg hk', ih]

theorem seenUpdate_eq_none (m : List (String × SeenVal)) (k : String) (v : SeenVal)
    (hm : assocGetD m k = none) : seenUpdate m k v = dictSet m k v := by
  unfold seenUpdate
  rw [hm]

theorem seenUpdate_eq_some (m : List (String × SeenVal)) (k : String) (v cur : SeenVal)
    (hm : assocGetD m k = some cur) :
    seenUpdate m k v = if v.2.2 > cur.2.2 then dictSet m k v else m := by
  unfold seenUpdate
  rw [hm]

theorem assocGetD_seenUpdate_same (m : List (String × SeenVal)) (k : String) (v : SeenVal) :
    assocGetD (seenUpdate m k v) k = wstep (assocGetD m k) v := by
  cases hm : assocGetD m k with
  | none =>
      rw [seenUpdate_eq_none m k v hm, assocGetD_dictSet_same]
      rfl
  | some cur =>
      rw [seenUpdate_eq_some m k v cur hm]
      show _ = if v.2.2 > cur.2.2 then some v else some cur
      by_cases hgt : v.2.2 > cur.2.2
      · rw [if_pos hgt, if_pos hgt, assocGetD_dictSet_same]
      · rw [if_neg hgt, if_neg hgt, hm]

theorem assocGetD_seenUpdate_ne (m : List (String × SeenVal)) (k k' : String) (v : SeenVal)
    (h : k' ≠ k) :
    assocGetD (seenUpdate m k v) k' = assocGetD m k' := by
  cases hm : assocGetD m k with
  | none => rw [seenUpdate_eq_none m k v hm, assocGetD_dictSet_ne _ _ _ _ h]
  | some cur =>
      rw [seenUpdate_eq_some m k v cur hm]
      by_cases hgt : v.2.2 > cur.2.2
      · rw [if_pos hgt, assocGetD_dictSet_ne _ _ _ _ h]
      · rw [if_neg hgt]

theorem assocGetD_seenFoldM (items : List (String × SeenVal)) :
    ∀ (m : List (String × SeenVal)) (k : String),
      assocGetD (seenFoldM m items) k =
        wfoldO (assocGetD m k) ((items.filter (fun kv => decide (kv.1 = k))).map (·.2)) := by
  induction items with
  | nil => intro m k; rfl
  | cons kv rest ih =>
      intro m k
      simp only [seenFoldM, List.foldl_cons, List.filter_cons]
      by_cases h : kv.1 = k
      · rw [if_pos (by simp [h])]
        have := ih (seenUpdate m kv.1 kv.2) k
        unfold seenFoldM at this
        rw [this, h, assocGetD_seenUpdate_same]
        rfl
      · rw [if_neg (by simp [h])]
        have := ih (seenUpdate m kv.1 kv.2) k
        unfold seenFoldM at this
        rw [this, assocGetD_seenUpdate_ne _ _ _ _ (fun hh => h hh.symm)]

theorem wfoldO_some (xs : List SeenVal) :
    ∀ a : SeenVal, wfoldO (some a) xs = some (wfoldSome a xs) := by
  induction xs with
  | nil => intro a; rfl
  | cons x rest ih =>
      intro a
      simp only [wfoldO, wfoldSome, List.foldl_cons] at ih ⊢
      by_cases h : x.2.2 > a.2.2
      · rw [show wstep (some a) x = some x by simp [wstep, h], if_pos h]
        exact ih x
      · rw [show wstep (some a) x = some a by simp [wstep, h], if_neg h]
        exact ih a

theorem bigM_le_init (xs : List SeenVal) : ∀ c : ℚ, c ≤ bigM c xs := by
  induction xs with
  | nil => intro c; exact le_refl c
  | cons x rest ih =>
      intro c
      calc c ≤ max c x.2.2 := le_max_left _ _
        _ ≤ bigM (max c x.2.2) rest := ih _
        _ = bigM c (x :: rest) := rfl

theorem bigM_le_mem (xs : List SeenVal) :
    ∀ (c : ℚ) (x : SeenVal), x ∈ xs → x.2.2 ≤ bigM c xs := by
  induction xs with
  | nil => intro c x hx; exact absurd hx (List.not_mem_nil x)
  | cons y rest ih =>
      intro c x hx
      rcases List.mem_cons.mp hx with h | h
      · subst h
        calc x.2.2 ≤ max c x.2.2 := le_max_right _ _
          _ ≤ bigM (max c x.2.2) rest := bigM_le_init rest _
      · exact ih _ x h

theorem bigM_mem_or (xs : List SeenVal) :
    ∀ c : ℚ, bigM c xs = c ∨ ∃ x ∈ xs, x.2.2 = bigM c xs := by
  induction xs with
  | nil => intro c; exact Or.inl rfl
  | cons x rest ih =>
      intro c
      have hstep : bigM c (x :: rest) = bigM (max c x.2.2) rest := rfl
      rcases ih (max c x.2.2) with h | ⟨y, hy, hye⟩
      · rcases max_choice c x.2.2 with hm | hm
        · exact Or.inl (by rw [hstep, h, hm])
        · exact Or.inr ⟨x, List.mem_cons_self _ _, by rw [hstep, h, hm]⟩
      · exact Or.inr ⟨y, List.mem_cons_of_mem _ hy, by rw [hstep, ← hye]⟩

theorem filter_conf_cons_pos (M : ℚ) (x : SeenVal) (l : List SeenVal) (hx : x.2.2 = M) :
    (x :: l).filter (fun y => decide (y.2.2 = M)) =
      x :: l.filter (fun y => decide (y.2.2 = M)) := by
  simp [List.filter_cons, hx]

theorem filter_conf_cons_neg (M : ℚ) (x : SeenVal) (l : List SeenVal) (hx : x.2.2 ≠ M) :
    (x :: l).filter (fun y => decide (y.2.2 = M)) =
      l.filter (fun y => decide (y.2.2 = M)) := by
  simp [List.filter_cons, hx]

theorem wfoldSome_cons (a x : SeenVal) (xs : List SeenVal) :
    wfoldSome a (x :: xs) = wfoldSome (if x.2.2 > a.2.2 then x else a) xs := by
  unfold wfoldSome
  rw [List.foldl_cons]

theorem wfoldSome_of_max (xs : List SeenVal) :
    ∀ a : SeenVal, (∀ x ∈ xs, x.2.2 ≤ a.2.2) → wfoldSome a xs = a := by
  induction xs with
  | nil => intro a _; rfl
  | cons x rest ih =>
      intro a h
      have hx : ¬x.2.2 > a.2.2 := not_lt.mpr (h x (List.mem_cons_self _ _))
      simp only [wfoldSome, List.foldl_cons, if_neg hx]
      exact ih a fun y hy => h y (List.mem_cons_of_mem _ hy)

theorem wfoldSome_ne_max (xs : List SeenVal) :
    ∀ a : SeenVal, a.2.2 ≠ bigM a.2.2 xs →
      some (wfoldSome a xs) =
        (xs.filter (fun x => decide (x.2.2 = bigM a.2.2 xs))).head? := by
  induction xs with
  | nil => intro a ha; exact absurd rfl ha
  | cons x rest ih =>
      intro a ha
      have hstep : bigM a.2.2 (x :: rest) = bigM (max a.2.2 x.2.2) rest := rfl
      by_cases hgt : x.2.2 > a.2.2
      · have hmax : max a.2.2 x.2.2 = x.2.2 := max_eq_right (le_of_lt hgt)
        have hM : bigM a.2.2 (x :: rest) = bigM x.2.2 rest := by rw [hstep, hmax]
        rw [wfoldSome_cons, if_pos hgt]
        by_cases hx : x.2.2 = bigM a.2.2 (x :: rest)
        · have hall : ∀ y ∈ rest, y.2.2 ≤ x.2.2 := by
            intro y hy
            have hy2 := bigM_le_mem rest x.2.2 y hy
            rw [← hM] at hy2
            rw [hx]
            exact hy2
          rw [filter_conf_cons_pos _ _ _ hx, List.head?_cons]
          exact congrArg some (wfoldSome_of_max rest x hall)
        · rw [filter_conf_cons_neg _ _ _ hx]
          have hx' : x.2.2 ≠ bigM x.2.2 rest := by rw [← hM]; exact hx
          have hrec := ih x hx'
          rw [hM]
          exact hrec
      · have hle : x.2.2 ≤ a.2.2 := not_lt.mp hgt
        have hmax : max a.2.2 x.2.2 = a.2.2 := max_eq_left hle
        have hM : bigM a.2.2 (x :: rest) = bigM a.2.2 rest := by rw [hstep, hmax]
        have hx : x.2.2 ≠ bigM a.2.2 (x :: rest) := by
          intro hxe
          apply ha
          have h1 : a.2.2 ≤ bigM a.2.2 (x :: rest) := bigM_le_init _ _
          exact le_antisymm h1 (hxe ▸ hle)
        rw [wfoldSome_cons, if_neg hgt]
        rw [filter_conf_cons_neg _ _ _ hx]
        have ha' : a.2.2 ≠ bigM a.2.2 rest := by rw [← hM]; exact ha
        have hrec := ih a ha'
        rw [hM]
        exact hrec

theorem wopt_filter (s : List SeenVal) :
    wfoldO none s = (s.filter (fun x => decide (x.2.2 = maxC s))).head? := by
  cases s with
  | nil => rfl
  | cons a xs =>
      have h0 : wfoldO none (a :: xs) = wfoldO (some a) xs := rfl
      rw [h0, wfoldO_some]
      show some (wfoldSome a xs) =
        ((a :: xs).filter (fun x => decide (x.2.2 = bigM a.2.2 xs))).head?
      by_cases hM : a.2.2 = bigM a.2.2 xs
      · have hall : ∀ y ∈ xs, y.2.2 ≤ a.2.2 := by
          intro y hy
          rw [hM]
          exact bigM_le_mem xs a.2.2 y hy
        rw [wfoldSome_of_max xs a hall, filter_conf_cons_pos _ _ _ hM, List.head?_cons]
      · rw [filter_conf_cons_neg _ _ _ hM]
        exact wfoldSome_ne_max xs a hM

theorem filters_eq_nil {s s' : List SeenVal}
    (h : ∀ c, s.filter (fun x => decide (x.2.2 = c)) =
      s'.filter (fun x => decide (x.2.2 = c)))
    (hs : s = []) : s' = [] := by
  cases hs' : s' with
  | nil => rfl
  | cons y ys =>
      have hy := h y.2.2
      rw [hs, hs'] at hy
      simp at hy

theorem maxC_mem (s : List SeenVal) (h : s ≠ []) :
    ∃ x ∈ s, x.2.2 = maxC s := by
  cases s with
  | nil => exact absurd rfl h
  | cons a xs =>
      have hmax : maxC (a :: xs) = bigM a.2.2 xs := rfl
      rcases bigM_mem_or xs a.2.2 with hc | ⟨y, hy, hye⟩
      · exact ⟨a, List.mem_cons_self _ _, by rw [hmax, hc]⟩
      · exact ⟨y, List.mem_cons_of_mem _ hy, by rw [hmax, ← hye]⟩

theorem maxC_ub (s : List SeenVal) : ∀ x ∈ s, x.2.2 ≤ maxC s := by
  cases s with
  | nil => intro x hx; exact absurd hx (List.not_mem_nil x)
  | cons a xs =>
      intro x hx
      rcases List.mem_cons.mp hx with h | h
      · subst h; exact bigM_le_init xs x.2.2
      · exact bigM_le_mem xs a.2.2 x h

theorem maxC_congr {s s' : List SeenVal}
    (h : ∀ c, s.filter (fun x => decide (x.2.2 = c)) =
      s'.filter (fun x => decide (x.2.2 = c)))
    (hs : s ≠ []) (hs' : s' ≠ []) : maxC s = maxC s' := by
  have cross : ∀ {t t' : List SeenVal},
      (∀ c, t.filter (fun x => decide (x.2.2 = c)) =
        t'.filter (fun x => decide (x.2.2 = c))) →
      t ≠ [] → maxC t ≤ maxC t' := by
    intro t t' ht htne
    obtain ⟨x, hx, hxe⟩ := maxC_mem t htne
    have hxf : x ∈ t.filter (fun x => decide (x.2.2 = maxC t)) :=
      List.mem_filter.mpr ⟨hx, decide_eq_true hxe⟩
    rw [ht (maxC t)] at hxf
    obtain ⟨hx', hxe'⟩ := List.mem_filter.mp hxf
    have := maxC_ub t' x hx'
    rw [of_decide_eq_true hxe'] at this
    exact this
  exact le_antisymm (cross h hs) (cross (fun c => (h c).symm) hs')

theorem wopt_congr {s s' : List SeenVal}
    (h : ∀ c, s.filter (fun x => decide (x.2.2 = c)) =
      s'.filter (fun x => decide (x.2.2 = c))) :
    wfoldO none s = wfoldO none s' := by
  by_cases hs : s = []
  · rw [hs, filters_eq_nil h hs]
  · have hs' : s' ≠ [] := by
      intro hnil
      exact hs (filters_eq_nil (fun c => (h c).symm) hnil)
    rw [wopt_filter, wopt_filter, maxC_congr h hs hs', h (maxC s')]

theorem pageItems_conf (p : PageAnalysis) :
    ∀ kv ∈ pageItems p, kv.2.2.2 = p.extraction_confidence := by
  intro kv hkv
  unfold pageItems at hkv
  obtain ⟨f, _, hf⟩ := List.mem_filterMap.mp hkv
  by_cases hk : keyOf f = ""
  · rw [if_pos hk] at hf
    exact absurd hf (by simp)
  · rw [if_neg hk] at hf
    have := Option.some.inj hf
    rw [← this]

theorem filter_conf_all_same (l : List SeenVal) (e : ℚ)
    (hall : ∀ x ∈ l, x.2.2 = e) (c : ℚ) :
    l.filter (fun v => decide (v.2.2 = c)) = if e = c then l else [] := by
  induction l with
  | nil => simp
  | cons x rest ih =>
      have hx : x.2.2 = e := hall x (List.mem_cons_self _ _)
      have hrest := ih fun y hy => hall y (List.mem_cons_of_mem _ hy)
      by_cases hec : e = c
      · rw [if_pos hec]
        rw [filter_conf_cons_pos _ _ _ (hx.trans hec)]
        rw [hrest, if_pos hec]
      · rw [if_neg hec]
        rw [filter_conf_cons_neg _ _ _ (by rw [hx]; exact hec)]
        rw [hrest, if_neg hec]

theorem candStream_cons (p : PageAnalysis) (rest : List PageAnalysis) (k : String) :
    candStream (p :: rest) k =
      (((pageItems p).filter (fun kv => decide (kv.1 = k))).map (·.2)) ++
        candStream rest k := by
  unfold candStream
  rw [List.flatMap_cons, List.filter_append, List.map_append]

theorem candStream_filter_conf (k : String) (c : ℚ) (pages : List PageAnalysis) :
    (candStream pages k).filter (fun v => decide (v.2.2 = c)) =
      candStream (pages.filter (fun p => decide (p.extraction_confidence = c))) k := by
  induction pages with
  | nil => rfl
  | cons p rest ih =>
      rw [candStream_cons, List.filter_append, ih]
      have hall : ∀ v ∈ ((pageItems p).filter (fun kv => decide (kv.1 = k))).map (·.2),
          v.2.2 = p.extraction_confidence := by
        intro v hv
        obtain ⟨kv, hkv, hkveq⟩ := List.mem_map.mp hv
        have := pageItems_conf p kv (List.mem_filter.mp hkv).1
        rw [← hkveq]
        exact this
      rw [filter_conf_all_same _ _ hall c]
      by_cases hc : p.extraction_confidence = c
      · rw [if_pos hc]
        have : (p :: rest).filter (fun p => decide (p.extraction_confidence = c)) =
            p :: rest.filter (fun p => decide (p.extraction_confidence = c)) := by
          simp [List.filter_cons, decide_eq_true hc]
        rw [this, candStream_cons]
      · rw [if_neg hc]
        have : (p :: rest).filter (fun p => decide (p.extraction_confidence = c)) =
            rest.filter (fun p => decide (p.extraction_confidence = c)) := by
          simp [List.filter_cons, decide_eq_false hc]
        rw [this]
        rfl

theorem stable_filters {l l' : List PageAnalysis}
    (h : isStableReorderPages l l' = true) (c : ℚ) :
    l.filter (fun p => decide (p.extraction_confidence = c)) =
      l'.filter (fun p => decide (p.extraction_confidence = c)) := by
  unfold isStableReorderPages at h
  rw [List.all_eq_true] at h
  by_cases hc : c ∈ l.map (·.extraction_confidence) ++ l'.map (·.extraction_confidence)
  · exact of_decide_eq_true (h c hc)
  · rw [List.mem_append, not_or] at hc
    have hl : l.filter (fun p => decide (p.extraction_confidence = c)) = [] := by
      apply List.filter_eq_nil_iff.mpr
      intro p hp
      simp only [decide_eq_true_eq]
      intro hpe
      exact hc.1 (List.mem_map.mpr ⟨p, hp, hpe⟩)
    have hl' : l'.filter (fun p => decide (p.extraction_confidence = c)) = [] := by
      apply List.filter_eq_nil_iff.mpr
      intro p hp
      simp only [decide_eq_true_eq]
      intro hpe
      exact hc.2 (List.mem_map.mpr ⟨p, hp, hpe⟩)
    rw [hl, hl']

/-- C6 (amended): `merge_page_analyses` as a whole is *not* invariant under
stable re-orderings (see the counterexample: warnings, first-non-null
identity fields and list orders shift), but the dedup decision is: under
any re-ordering of pages that keeps every equal-confidence class in its
relative order, the `seen_findings` entry selected for every dedup key —
the finding, its source page and its confidence — is unchanged, because
on a collision the stored entry is replaced exactly when the new page's
confidence is strictly greater, so each key keeps the first page attaining
the maximal confidence. -/
theorem C6_winner_invariance (l l' : List PageAnalysis) (k : String)
    (h : isStableReorderPages l l' = true) :
    assocGetD (mergeScan l).seen k = assocGetD (mergeScan l').seen k := by
  rw [mergeScan_seen, mergeScan_seen, assocGetD_seenFoldM, assocGetD_seenFoldM]
  show wfoldO none (candStream l k) = wfoldO none (candStream l' k)
  apply wopt_congr
  intro c
  rw [candStream_filter_conf, candStream_filter_conf, stable_filters h c]

theorem C6_winner_invariance_witness :
    isStableReorderPages [c6page1, c6page2] [c6page2, c6page1] = true ∧
      assocGetD (mergeScan [c6page1, c6page2]).seen "hgb" =
        assocGetD (mergeScan [c6page2, c6page1]).seen "hgb" :=
  ⟨by decide,
    C6_winner_invariance [c6page1, c6page2] [c6page2, c6page1] "hgb" (by decide)⟩

end CYNO
